import Mathlib

/-!
Verification of the Amaidesu event-bus core against its specification.

This file is a shallow embedding, in Lean 4, of the parts of the repository
that the specification's testable properties talk about:

* `src/signals/neural_signal.py` — the `NeuralSignal` record and its enums;
* `src/core/synaptic_network.py` — `SignalFilter.match` and the
  `SynapticNetwork` subscription tables, registration, unregistration and
  the per-signal dispatch candidate computation;
* `src/neurons/neuron.py` — `Neuron.deactivate`;
* `src/core/central_cortex.py` — `CortexBase` registration bookkeeping,
  `deactivate_neuron` and `deactivate_all`;
* `src/cerebellum/immune_system.py` — `ImmuneSystem.handle_exception`,
  quarantine, healing and release;
* `src/neural_plasticity/plugin_manager.py` — `PluginManager.load_plugin`
  and `PluginManager._get_load_order`.

Python dictionaries are embedded as functions or association lists, Python
lists as Lean lists, sets as lists kept duplicate-free (or `Finset`s), and
exceptions as explicit boolean "raised" results.  Side effects that no claim
depends on (logging, timestamps, uuids, statistics counters, the opaque
payload) are omitted; every branch that decides control flow is kept.
Callbacks and handlers are identified by a numeric identity standing for
CPython's `id(...)`; "invoking" a callback is modelled by the callback's
entry appearing in the dispatch list that the embedded function returns.
-/

/-- Embeds `SignalPriority` (`neural_signal.py`): `auto()` assigns 1..4. -/
inductive SignalPriority where
  | LOW
  | NORMAL
  | HIGH
  | URGENT
deriving DecidableEq, Repr

/-- `SignalPriority.value`: the `auto()`-assigned enum value. -/
def SignalPriority.value : SignalPriority → Nat
  | .LOW => 1
  | .NORMAL => 2
  | .HIGH => 3
  | .URGENT => 4

/-- Embeds `SignalType` (`neural_signal.py`). -/
inductive SignalType where
  | SENSORY
  | CORE
  | MOTOR
  | SYSTEM
deriving DecidableEq, Repr

/-- Iteration order of `for signal_type in SignalType` (enum definition order). -/
def SignalType.all : List SignalType :=
  [SignalType.SENSORY, SignalType.CORE, SignalType.MOTOR, SignalType.SYSTEM]

/-- Embeds `NeuralSignal` (`neural_signal.py`); the generated id, timestamps,
payload, processed flag and processing history are omitted (no claim reads
them).  `target = none` embeds Python `target=None`. -/
structure NeuralSignal where
  signal_type : SignalType
  source : String
  target : Option String
  priority : SignalPriority

/-- Truthiness of an optional Python string: `None` and `""` are falsy. -/
def optStrTruthy : Option String → Bool
  | none => false
  | some s => !(s == "")

/-- `pat` is a prefix of `hay` (on character lists). -/
def charsPrefix : List Char → List Char → Bool
  | [], _ => true
  | _ :: _, [] => false
  | c :: cs, d :: ds => c == d && charsPrefix cs ds

/-- `pat` occurs as a contiguous substring of `hay` (on character lists). -/
def charsInfix (pat : List Char) : List Char → Bool
  | [] => charsPrefix pat []
  | c :: rest => charsPrefix pat (c :: rest) || charsInfix pat rest

/-- Embeds Python's `pat in hay` substring test on strings. -/
def strContains (hay pat : String) : Bool :=
  charsInfix pat.toList hay.toList

/-- Embeds `SignalFilter` (`synaptic_network.py`).  The constructor stores
`set(signal_types) if signal_types else None`; we embed the set as a
duplicate-free list, with `[]` standing for `None`/empty (both are falsy
wherever the field is used).  Likewise `[]` stands for an absent pattern
list, and `none` for an absent minimum priority or custom predicate. -/
structure SignalFilter where
  signal_types : List SignalType
  source_patterns : List String
  target_patterns : List String
  min_priority : Option SignalPriority
  custom_filter : Option (NeuralSignal → Bool)

/-- Embeds `SignalFilter.match` (`synaptic_network.py` lines 33–57),
branch for branch.  (`match` is a Lean keyword, hence `matches`.) -/
def SignalFilter.matches (f : SignalFilter) (signal : NeuralSignal) : Bool :=
  if !f.signal_types.isEmpty && !(f.signal_types.contains signal.signal_type) then
    false
  else if !f.source_patterns.isEmpty
      && !(f.source_patterns.any fun pattern => strContains signal.source pattern) then
    false
  else if !f.target_patterns.isEmpty && optStrTruthy signal.target
      && !(f.target_patterns.any fun pattern =>
            strContains (signal.target.getD "") pattern) then
    false
  else if (match f.min_priority with
           | some m => decide (signal.priority.value < m.value)
           | none => false) then
    false
  else
    match f.custom_filter with
    | some g => g signal
    | none => true

/-- The filter of the C8 counterexample: destination patterns specified,
nothing else. -/
def c8Filter : SignalFilter :=
  { signal_types := []
    source_patterns := []
    target_patterns := ["x"]
    min_priority := none
    custom_filter := none }

/-- The signal of the C8 counterexample: no destination at all. -/
def c8Signal : NeuralSignal :=
  { signal_type := SignalType.SENSORY
    source := "src"
    target := none
    priority := SignalPriority.NORMAL }

/-- C8 (counterexample): a filter that specifies destination patterns
nevertheless matches a signal that has no destination, so "matches only
when the destination-pattern substring check passes" fails: there is no
destination for any pattern to be a substring of. -/
theorem c8_match_without_target_check :
    c8Filter.matches c8Signal = true
      ∧ c8Filter.target_patterns ≠ []
      ∧ c8Signal.target = none := by
  refine ⟨rfl, by simp [c8Filter], rfl⟩

lemma matches_characterization (f : SignalFilter) (s : NeuralSignal) :
    f.matches s = true ↔
      (f.signal_types = [] ∨ s.signal_type ∈ f.signal_types)
      ∧ (f.source_patterns = [] ∨ ∃ p ∈ f.source_patterns, strContains s.source p = true)
      ∧ (f.target_patterns = [] ∨ optStrTruthy s.target = false
          ∨ ∃ p ∈ f.target_patterns, strContains (s.target.getD "") p = true)
      ∧ (∀ m, f.min_priority = some m → m.value ≤ s.priority.value)
      ∧ (∀ g, f.custom_filter = some g → g s = true) := by
  rcases f with ⟨ts, sp, tp, mp, cf⟩
  simp only [SignalFilter.matches]
  cases mp <;> cases cf <;>
    simp [List.isEmpty_iff, List.any_eq_true, List.elem_iff, Nat.not_lt,
      or_iff_not_imp_left]

/-- C8 (amended): `SignalFilter.match` is the conjunction of every specified
conjunct, except that the destination conjunct passes vacuously not only when
no destination patterns are specified but also when the signal has no (or an
empty) destination. -/
theorem signal_filter_matches_iff (f : SignalFilter) (s : NeuralSignal) :
    f.matches s = true ↔
      (f.signal_types = [] ∨ s.signal_type ∈ f.signal_types)
      ∧ (f.source_patterns = [] ∨ ∃ p ∈ f.source_patterns, strContains s.source p = true)
      ∧ (f.target_patterns = [] ∨ optStrTruthy s.target = false
          ∨ ∃ p ∈ f.target_patterns, strContains (s.target.getD "") p = true)
      ∧ (∀ m, f.min_priority = some m → m.value ≤ s.priority.value)
      ∧ (∀ g, f.custom_filter = some g → g s = true) :=
  matches_characterization f s

/-! ## The synaptic network (signal bus)

`SynapticNetwork.__init__` keeps four subscription tables: sync and async
receptors indexed by signal type (`defaultdict(list)`), and sync and async
global receptor lists.  A receptor dict `{"id", "callback", "filter",
"created_at"}` is embedded as `Receptor`; the callback is identified by the
number standing for CPython's `id(callback)` (the receptor id is
`str(id(callback))`, embedded as that same number). -/

/-- One entry of a subscription table (`receptor` dict in the source). -/
structure Receptor where
  rid : Nat
  filter : Option SignalFilter

/-- The subscription tables of `SynapticNetwork`; statistics, the queue and
the worker task are omitted (no claim reads them). -/
structure SynapticNetwork where
  receptors : SignalType → List Receptor
  async_receptors : SignalType → List Receptor
  global_receptors : List Receptor
  async_global_receptors : List Receptor

/-- A freshly constructed network: every table empty. -/
def SynapticNetwork.empty : SynapticNetwork :=
  { receptors := fun _ => []
    async_receptors := fun _ => []
    global_receptors := []
    async_global_receptors := [] }

/-- The arguments of one `register_receptor` call: callback identity,
optional filter, `is_async` flag. -/
structure RegReq where
  cbId : Nat
  filter : Option SignalFilter
  is_async : Bool

/-- The receptor record built by `register_receptor`. -/
def mkReceptor (q : RegReq) : Receptor :=
  { rid := q.cbId, filter := q.filter }

/-- Append `r` to the list indexed by `t` (one iteration of the
`for signal_type in signal_filter.signal_types` loop). -/
def addToType (m : SignalType → List Receptor) (r : Receptor) (t : SignalType) :
    SignalType → List Receptor :=
  fun u => if u = t then m u ++ [r] else m u

/-- The whole per-type registration loop. -/
def addToTypes (m : SignalType → List Receptor) (r : Receptor)
    (ts : List SignalType) : SignalType → List Receptor :=
  ts.foldl (fun acc t => addToType acc r t) m

/-- Embeds `SynapticNetwork.register_receptor` (lines 102–132): a filter with
a non-empty type set indexes the receptor under each of its types, otherwise
the receptor is global; returns the receptor id. -/
def register_receptor (net : SynapticNetwork) (q : RegReq) : SynapticNetwork × Nat :=
  let receptor := mkReceptor q
  let net1 :=
    match q.filter with
    | some f =>
      if !f.signal_types.isEmpty then
        if q.is_async then
          { net with async_receptors := addToTypes net.async_receptors receptor f.signal_types }
        else
          { net with receptors := addToTypes net.receptors receptor f.signal_types }
      else if q.is_async then
        { net with async_global_receptors := net.async_global_receptors ++ [receptor] }
      else
        { net with global_receptors := net.global_receptors ++ [receptor] }
    | none =>
      if q.is_async then
        { net with async_global_receptors := net.async_global_receptors ++ [receptor] }
      else
        { net with global_receptors := net.global_receptors ++ [receptor] }
  (net1, q.cbId)

/-- Remove the first entry whose id equals `i` (the inner
`for i, receptor in enumerate(...)` / `pop(i)` / `break` pattern of
`unregister_receptor`); also reports whether an entry was removed. -/
def removeFirst (i : Nat) : List Receptor → List Receptor × Bool
  | [] => ([], false)
  | r :: rest =>
    if r.rid = i then (rest, true)
    else
      let res := removeFirst i rest
      (r :: res.1, res.2)

/-- Embeds `SynapticNetwork.unregister_receptor` (lines 134–163): scan every
signal type's sync and async list, then the two global lists, removing the
first matching entry of each list; return whether anything was removed. -/
def unregister_receptor (net : SynapticNetwork) (i : Nat) : SynapticNetwork × Bool :=
  let step := fun (acc : SynapticNetwork × Bool) (t : SignalType) =>
    let res1 := removeFirst i (acc.1.receptors t)
    let res2 := removeFirst i (acc.1.async_receptors t)
    ({ acc.1 with
        receptors := fun u => if u = t then res1.1 else acc.1.receptors u
        async_receptors := fun u => if u = t then res2.1 else acc.1.async_receptors u },
      acc.2 || res1.2 || res2.2)
  let afterTyped := SignalType.all.foldl step (net, false)
  let resg := removeFirst i afterTyped.1.global_receptors
  let resag := removeFirst i afterTyped.1.async_global_receptors
  ({ afterTyped.1 with
      global_receptors := resg.1
      async_global_receptors := resag.1 },
    afterTyped.2 || resg.2 || resag.2)

/-- A receptor fires on a signal when it has no filter or its filter matches
(the guard of both dispatch loops in `_process_signal`). -/
def receptorFires (r : Receptor) (s : NeuralSignal) : Bool :=
  match r.filter with
  | none => true
  | some f => f.matches s

/-- The synchronous invocation list of `_process_signal` (lines 202–208):
global receptors then the type-indexed receptors of the signal's type, kept
in order, restricted to those that fire.  A callback raising is caught and
logged, so it does not change which receptors are invoked. -/
def sync_dispatch (net : SynapticNetwork) (s : NeuralSignal) : List Receptor :=
  (net.global_receptors ++ net.receptors s.signal_type).filter fun r => receptorFires r s

/-- The asynchronous invocation list of `_process_signal` (lines 210–217). -/
def async_dispatch (net : SynapticNetwork) (s : NeuralSignal) : List Receptor :=
  (net.async_global_receptors ++ net.async_receptors s.signal_type).filter fun r =>
    receptorFires r s

/-- Fold a list of registrations over an initial network. -/
def buildFrom (net : SynapticNetwork) (reqs : List RegReq) : SynapticNetwork :=
  reqs.foldl (fun n q => (register_receptor n q).1) net

/-- The network after a sequence of `register_receptor` calls on a fresh bus. -/
def buildNet (reqs : List RegReq) : SynapticNetwork :=
  buildFrom SynapticNetwork.empty reqs

/-- How often the callback with identity `i` is invoked while dispatching
signal `s`: occurrences in the sync plus the async invocation lists. -/
def invokedCount (net : SynapticNetwork) (s : NeuralSignal) (i : Nat) : Nat :=
  ((sync_dispatch net s).countP fun r => r.rid == i)
    + ((async_dispatch net s).countP fun r => r.rid == i)

/-- A registration lands in the global tables (`None` filter, or a filter
whose type set is falsy). -/
def RegReq.isGlobal (q : RegReq) : Bool :=
  match q.filter with
  | none => true
  | some f => f.signal_types.isEmpty

/-- A registration is indexed under type `t`. -/
def RegReq.typedFor (q : RegReq) (t : SignalType) : Bool :=
  match q.filter with
  | none => false
  | some f => !f.signal_types.isEmpty && f.signal_types.contains t

/-- Well-formedness that the Python constructor guarantees: the filter's
`signal_types` is a `set`, hence duplicate-free. -/
def RegReq.wfTypes (q : RegReq) : Bool :=
  match q.filter with
  | none => true
  | some f => decide f.signal_types.Nodup

lemma addToTypes_apply (ts : List SignalType) (hts : ts.Nodup)
    (m : SignalType → List Receptor) (r : Receptor) (u : SignalType) :
    addToTypes m r ts u = m u ++ (if u ∈ ts then [r] else []) := by
  induction ts generalizing m with
  | nil => simp [addToTypes]
  | cons t rest ih =>
    have hrest : rest.Nodup := hts.of_cons
    have hstep : addToTypes m r (t :: rest) u = addToTypes (addToType m r t) r rest u := rfl
    rw [hstep, ih hrest]
    by_cases hu : u = t
    · subst hu
      have hnot : u ∉ rest := (List.nodup_cons.mp hts).1
      simp [addToType, hnot]
    · simp [addToType, hu, List.mem_cons]

lemma register_global_eq (net : SynapticNetwork) (q : RegReq) :
    ((register_receptor net q).1).global_receptors
      = net.global_receptors
          ++ (if !q.is_async && q.isGlobal then [mkReceptor q] else []) := by
  rcases q with ⟨c, f, a⟩
  cases f <;> cases a <;>
    simp [register_receptor, RegReq.isGlobal, mkReceptor] <;>
    split <;> simp

lemma register_async_global_eq (net : SynapticNetwork) (q : RegReq) :
    ((register_receptor net q).1).async_global_receptors
      = net.async_global_receptors
          ++ (if q.is_async && q.isGlobal then [mkReceptor q] else []) := by
  rcases q with ⟨c, f, a⟩
  cases f <;> cases a <;>
    simp [register_receptor, RegReq.isGlobal, mkReceptor] <;>
    split <;> simp

lemma register_typed_eq (net : SynapticNetwork) (q : RegReq)
    (hwf : q.wfTypes = true) (t : SignalType) :
    ((register_receptor net q).1).receptors t
      = net.receptors t
          ++ (if !q.is_async && q.typedFor t then [mkReceptor q] else []) := by
  rcases q with ⟨c, f, a⟩
  cases f with
  | none => cases a <;> simp [register_receptor, RegReq.typedFor]
  | some fl =>
    have hnd : fl.signal_types.Nodup := by
      simpa [RegReq.wfTypes] using hwf
    cases a <;>
      simp [register_receptor, RegReq.typedFor, mkReceptor] <;>
      by_cases hemp : fl.signal_types = [] <;>
      simp [hemp, addToTypes_apply fl.signal_types hnd, List.elem_iff]

lemma register_async_typed_eq (net : SynapticNetwork) (q : RegReq)
    (hwf : q.wfTypes = true) (t : SignalType) :
    ((register_receptor net q).1).async_receptors t
      = net.async_receptors t
          ++ (if q.is_async && q.typedFor t then [mkReceptor q] else []) := by
  rcases q with ⟨c, f, a⟩
  cases f with
  | none => cases a <;> simp [register_receptor, RegReq.typedFor]
  | some fl =>
    have hnd : fl.signal_types.Nodup := by
      simpa [RegReq.wfTypes] using hwf
    cases a <;>
      simp [register_receptor, RegReq.typedFor, mkReceptor] <;>
      by_cases hemp : fl.signal_types = [] <;>
      simp [hemp, addToTypes_apply fl.signal_types hnd, List.elem_iff]

lemma buildFrom_cons (net : SynapticNetwork) (q : RegReq) (rest : List RegReq) :
    buildFrom net (q :: rest) = buildFrom ((register_receptor net q).1) rest := rfl

lemma buildFrom_global_eq (reqs : List RegReq) :
    ∀ net, (buildFrom net reqs).global_receptors
      = net.global_receptors
          ++ ((reqs.filter fun q => !q.is_async && q.isGlobal).map mkReceptor) := by
  induction reqs with
  | nil => intro net; simp [buildFrom]
  | cons q rest ih =>
    intro net
    rw [buildFrom_cons, ih, register_global_eq, List.filter_cons]
    by_cases h : (!q.is_async && q.isGlobal) = true <;> simp [h]

lemma buildFrom_async_global_eq (reqs : List RegReq) :
    ∀ net, (buildFrom net reqs).async_global_receptors
      = net.async_global_receptors
          ++ ((reqs.filter fun q => q.is_async && q.isGlobal).map mkReceptor) := by
  induction reqs with
  | nil => intro net; simp [buildFrom]
  | cons q rest ih =>
    intro net
    rw [buildFrom_cons, ih, register_async_global_eq, List.filter_cons]
    by_cases h : (q.is_async && q.isGlobal) = true <;> simp [h]

lemma buildFrom_typed_eq (reqs : List RegReq) (hwf : ∀ q ∈ reqs, q.wfTypes = true) :
    ∀ net t, (buildFrom net reqs).receptors t
      = net.receptors t
          ++ ((reqs.filter fun q => !q.is_async && q.typedFor t).map mkReceptor) := by
  induction reqs with
  | nil => intro net t; simp [buildFrom]
  | cons q rest ih =>
    intro net t
    have hq : q.wfTypes = true := hwf q (by simp)
    have hrest : ∀ x ∈ rest, x.wfTypes = true := fun x hx => hwf x (by simp [hx])
    rw [buildFrom_cons, ih hrest, register_typed_eq net q hq t, List.filter_cons]
    by_cases h : (!q.is_async && q.typedFor t) = true <;> simp [h]

lemma buildFrom_async_typed_eq (reqs : List RegReq) (hwf : ∀ q ∈ reqs, q.wfTypes = true) :
    ∀ net t, (buildFrom net reqs).async_receptors t
      = net.async_receptors t
          ++ ((reqs.filter fun q => q.is_async && q.typedFor t).map mkReceptor) := by
  induction reqs with
  | nil => intro net t; simp [buildFrom]
  | cons q rest ih =>
    intro net t
    have hq : q.wfTypes = true := hwf q (by simp)
    have hrest : ∀ x ∈ rest, x.wfTypes = true := fun x hx => hwf x (by simp [hx])
    rw [buildFrom_cons, ih hrest, register_async_typed_eq net q hq t, List.filter_cons]
    by_cases h : (q.is_async && q.typedFor t) = true <;> simp [h]

lemma buildNet_global (reqs : List RegReq) :
    (buildNet reqs).global_receptors
      = (reqs.filter fun q => !q.is_async && q.isGlobal).map mkReceptor := by
  simpa [SynapticNetwork.empty] using buildFrom_global_eq reqs SynapticNetwork.empty

lemma buildNet_async_global (reqs : List RegReq) :
    (buildNet reqs).async_global_receptors
      = (reqs.filter fun q => q.is_async && q.isGlobal).map mkReceptor := by
  simpa [SynapticNetwork.empty] using buildFrom_async_global_eq reqs SynapticNetwork.empty

lemma buildNet_typed (reqs : List RegReq) (hwf : ∀ q ∈ reqs, q.wfTypes = true)
    (t : SignalType) :
    (buildNet reqs).receptors t
      = (reqs.filter fun q => !q.is_async && q.typedFor t).map mkReceptor := by
  simpa [SynapticNetwork.empty] using buildFrom_typed_eq reqs hwf SynapticNetwork.empty t

lemma buildNet_async_typed (reqs : List RegReq) (hwf : ∀ q ∈ reqs, q.wfTypes = true)
    (t : SignalType) :
    (buildNet reqs).async_receptors t
      = (reqs.filter fun q => q.is_async && q.typedFor t).map mkReceptor := by
  simpa [SynapticNetwork.empty] using buildFrom_async_typed_eq reqs hwf SynapticNetwork.empty t

lemma countP_key (reqs : List RegReq) (hn : (reqs.map RegReq.cbId).Nodup)
    (q : RegReq) (hq : q ∈ reqs) (P : RegReq → Bool) :
    (reqs.countP fun x => (x.cbId == q.cbId) && P x) = if P q then 1 else 0 := by
  induction reqs with
  | nil => cases hq
  | cons a rest ih =>
    have hn1 : a.cbId ∉ rest.map RegReq.cbId := (List.nodup_cons.mp (by simpa using hn)).1
    have hn2 : (rest.map RegReq.cbId).Nodup := (List.nodup_cons.mp (by simpa using hn)).2
    rcases List.mem_cons.mp hq with hqa | hqrest
    · subst hqa
      have hzero : (rest.countP fun x => (x.cbId == q.cbId) && P x) = 0 := by
        refine List.countP_eq_zero.mpr fun x hx => ?_
        have : x.cbId ≠ q.cbId := by
          intro hcontr
          exact hn1 (hcontr ▸ List.mem_map_of_mem RegReq.cbId hx)
        simp [this]
      by_cases hP : P q = true <;> simp [List.countP_cons, hzero, hP]
    · have hne : a.cbId ≠ q.cbId := by
        intro hcontr
        exact hn1 (hcontr ▸ List.mem_map_of_mem RegReq.cbId hqrest)
      simp [List.countP_cons, hne, ih hn2 hqrest]

lemma isGlobal_typedFor_exclusive (q : RegReq) (t : SignalType)
    (h : q.isGlobal = true) : q.typedFor t = false := by
  rcases q with ⟨c, f, a⟩
  cases f with
  | none => simp [RegReq.typedFor]
  | some fl =>
    simp only [RegReq.isGlobal] at h
    simp [RegReq.typedFor, h]

lemma fires_imp_global_or_typed (q : RegReq) (s : NeuralSignal)
    (h : receptorFires (mkReceptor q) s = true) :
    q.isGlobal = true ∨ q.typedFor s.signal_type = true := by
  rcases q with ⟨c, f, a⟩
  cases f with
  | none => left; rfl
  | some fl =>
    by_cases hemp : fl.signal_types = []
    · left; simp [RegReq.isGlobal, hemp]
    · right
      have hm : fl.matches s = true := by
        simpa [receptorFires, mkReceptor] using h
      have hmem := ((matches_characterization fl s).mp hm).1
      rcases hmem with h1 | h2
      · exact absurd h1 hemp
      · simp [RegReq.typedFor, List.isEmpty_iff, hemp, List.elem_iff, h2]

/-- C1: on a network built by any sequence of `register_receptor` calls
registering pairwise distinct callbacks, dispatching a signal invokes each
registered receptor exactly once when it fires (it is global, or its filter
— possibly naming several signal types, indexing it under each — matches)
and never invokes a receptor that does not fire. -/
theorem dispatch_invokes_matching_once (reqs : List RegReq)
    (hids : (reqs.map RegReq.cbId).Nodup)
    (hwf : ∀ q ∈ reqs, q.wfTypes = true)
    (q : RegReq) (hq : q ∈ reqs) (s : NeuralSignal) :
    invokedCount (buildNet reqs) s q.cbId
      = if receptorFires (mkReceptor q) s then 1 else 0 := by
  have hsync : sync_dispatch (buildNet reqs) s
      = (((reqs.filter fun x => !x.is_async && x.isGlobal).map mkReceptor)
          ++ ((reqs.filter fun x => !x.is_async && x.typedFor s.signal_type).map mkReceptor)).filter
            (fun r => receptorFires r s) := by
    rw [sync_dispatch, buildNet_global, buildNet_typed reqs hwf]
  have hasync : async_dispatch (buildNet reqs) s
      = (((reqs.filter fun x => x.is_async && x.isGlobal).map mkReceptor)
          ++ ((reqs.filter fun x => x.is_async && x.typedFor s.signal_type).map mkReceptor)).filter
            (fun r => receptorFires r s) := by
    rw [async_dispatch, buildNet_async_global, buildNet_async_typed reqs hwf]
  have key : ∀ P : RegReq → Bool,
      ((((reqs.filter P).map mkReceptor).filter fun r => receptorFires r s).countP
          fun r => r.rid == q.cbId)
        = if (receptorFires (mkReceptor q) s && P q) then 1 else 0 := by
    intro P
    rw [List.countP_filter, List.countP_map, List.countP_filter]
    have hfun : (fun x => ((fun r => r.rid == q.cbId && receptorFires r s) ∘ mkReceptor) x && P x)
        = fun x => (x.cbId == q.cbId) && (receptorFires (mkReceptor x) s && P x) := by
      funext x
      simp [mkReceptor, Function.comp, Bool.and_assoc]
    rw [hfun, countP_key reqs hids q hq]
  rw [invokedCount, hsync, hasync, List.filter_append, List.filter_append,
    List.countP_append, List.countP_append,
    key fun x => !x.is_async && x.isGlobal,
    key fun x => !x.is_async && x.typedFor s.signal_type,
    key fun x => x.is_async && x.isGlobal,
    key fun x => x.is_async && x.typedFor s.signal_type]
  cases hf : receptorFires (mkReceptor q) s with
  | false => simp
  | true =>
    rcases fires_imp_global_or_typed q s hf with hg | ht
    · have hnt := isGlobal_typedFor_exclusive q s.signal_type hg
      cases ha : q.is_async <;> simp [hg, hnt, ha]
    · have hng : q.isGlobal = false := by
        cases hgl : q.isGlobal
        · rfl
        · exact absurd (isGlobal_typedFor_exclusive q s.signal_type hgl) (by simp [ht])
      cases ha : q.is_async <;> simp [ht, hng, ha]

/-- The C1 witness scenario: callback 1 filtered on two signal types,
callback 2 global. -/
def c1Filter : SignalFilter :=
  { signal_types := [SignalType.SENSORY, SignalType.CORE]
    source_patterns := []
    target_patterns := []
    min_priority := none
    custom_filter := none }

/-- Registrations for the C1 witness. -/
def c1Reqs : List RegReq :=
  [{ cbId := 1, filter := some c1Filter, is_async := false },
   { cbId := 2, filter := none, is_async := false }]

/-- The signal dispatched in the C1 witness. -/
def c1Signal : NeuralSignal :=
  { signal_type := SignalType.SENSORY
    source := "s"
    target := none
    priority := SignalPriority.NORMAL }

/-- Witness for C1: the receptor filtered on two types fires exactly once on
a matching signal. -/
theorem dispatch_invokes_matching_once_witness :
    invokedCount (buildNet c1Reqs) c1Signal 1 = 1 := by
  have h := dispatch_invokes_matching_once c1Reqs (by decide) (by decide)
      { cbId := 1, filter := some c1Filter, is_async := false }
      (by simp [c1Reqs]) c1Signal
  rw [show receptorFires
      (mkReceptor { cbId := 1, filter := some c1Filter, is_async := false })
      c1Signal = true from rfl] at h
  simpa using h

/-- Registrations of the C7 counterexample: a type-indexed receptor
subscribed before a global one. -/
def c7Reqs : List RegReq :=
  [{ cbId := 1
     filter := some { signal_types := [SignalType.SENSORY], source_patterns := [],
                      target_patterns := [], min_priority := none, custom_filter := none }
     is_async := false },
   { cbId := 2, filter := none, is_async := false }]

/-- The signal of the C7 counterexample; both receptors fire on it. -/
def c7Signal : NeuralSignal :=
  { signal_type := SignalType.SENSORY
    source := "s"
    target := none
    priority := SignalPriority.NORMAL }

/-- C7 (counterexample): the global receptor (registered second) is invoked
before the type-indexed receptor (registered first), so synchronous dispatch
is not in registration order across all receptors. -/
theorem c7_sync_dispatch_not_registration_order :
    (sync_dispatch (buildNet c7Reqs) c7Signal).map Receptor.rid = [2, 1]
      ∧ c7Reqs.map RegReq.cbId = [1, 2] := by
  exact ⟨rfl, rfl⟩

/-- C7 (amended): synchronous dispatch invokes the matching global receptors
first, in their registration order, then the matching type-indexed receptors
of the signal's type, in their registration order. -/
theorem sync_dispatch_order (reqs : List RegReq)
    (hwf : ∀ q ∈ reqs, q.wfTypes = true) (s : NeuralSignal) :
    sync_dispatch (buildNet reqs) s
      = (((reqs.filter fun q => !q.is_async && q.isGlobal).map mkReceptor).filter
            fun r => receptorFires r s)
        ++ (((reqs.filter fun q => !q.is_async && q.typedFor s.signal_type).map
              mkReceptor).filter fun r => receptorFires r s) := by
  rw [sync_dispatch, buildNet_global, buildNet_typed reqs hwf, List.filter_append]

/-- Witness for the amended C7 on the counterexample scenario. -/
theorem sync_dispatch_order_witness :
    sync_dispatch (buildNet c7Reqs) c7Signal
      = (((c7Reqs.filter fun q => !q.is_async && q.isGlobal).map mkReceptor).filter
            fun r => receptorFires r c7Signal)
        ++ (((c7Reqs.filter fun q => !q.is_async && q.typedFor c7Signal.signal_type).map
              mkReceptor).filter fun r => receptorFires r c7Signal) :=
  sync_dispatch_order c7Reqs (by decide) c7Signal

lemma removeFirst_flag (i : Nat) (l : List Receptor) :
    (removeFirst i l).2 = l.any fun r => r.rid == i := by
  induction l with
  | nil => rfl
  | cons r rest ih =>
    by_cases h : r.rid = i <;> simp [removeFirst, h, ih]

lemma removeFirst_cons_pos (i : Nat) (r : Receptor) (rest : List Receptor)
    (hr : r.rid = i) : removeFirst i (r :: rest) = (rest, true) := by
  simp [removeFirst, hr]

lemma removeFirst_cons_neg (i : Nat) (r : Receptor) (rest : List Receptor)
    (hr : ¬r.rid = i) :
    removeFirst i (r :: rest)
      = (r :: (removeFirst i rest).1, (removeFirst i rest).2) := by
  simp [removeFirst, hr]

lemma removeFirst_countP_self (i : Nat) (l : List Receptor)
    (h : (l.countP fun r => r.rid == i) ≤ 1) :
    ((removeFirst i l).1.countP fun r => r.rid == i) = 0 := by
  induction l with
  | nil => rfl
  | cons r rest ih =>
    rw [List.countP_cons] at h
    by_cases hr : r.rid = i
    · rw [removeFirst_cons_pos i r rest hr]
      have hp : (r.rid == i) = true := by simp [hr]
      rw [hp, if_pos rfl] at h
      show (rest.countP fun x => x.rid == i) = 0
      omega
    · have hp : (r.rid == i) = false := by simp [hr]
      rw [hp] at h
      simp only [Bool.false_eq_true, if_false, Nat.add_zero] at h
      rw [removeFirst_cons_neg i r rest hr]
      show ((r :: (removeFirst i rest).1).countP fun x => x.rid == i) = 0
      rw [List.countP_cons, hp, ih h]
      simp

lemma removeFirst_countP_le (i j : Nat) (l : List Receptor) :
    ((removeFirst i l).1.countP fun r => r.rid == j)
      ≤ l.countP fun r => r.rid == j := by
  induction l with
  | nil => simp [removeFirst]
  | cons r rest ih =>
    by_cases hr : r.rid = i
    · rw [removeFirst_cons_pos i r rest hr, List.countP_cons]
      show (rest.countP fun x => x.rid == j) ≤ _
      omega
    · rw [removeFirst_cons_neg i r rest hr]
      show ((r :: (removeFirst i rest).1).countP fun x => x.rid == j) ≤ _
      rw [List.countP_cons, List.countP_cons]
      have := ih
      omega

lemma unregister_receptors_apply (net : SynapticNetwork) (i : Nat) (t : SignalType) :
    (unregister_receptor net i).1.receptors t = (removeFirst i (net.receptors t)).1 := by
  cases t <;> simp [unregister_receptor, SignalType.all]

lemma unregister_async_receptors_apply (net : SynapticNetwork) (i : Nat) (t : SignalType) :
    (unregister_receptor net i).1.async_receptors t
      = (removeFirst i (net.async_receptors t)).1 := by
  cases t <;> simp [unregister_receptor, SignalType.all]

lemma unregister_global_apply (net : SynapticNetwork) (i : Nat) :
    (unregister_receptor net i).1.global_receptors
      = (removeFirst i net.global_receptors).1 := by
  simp [unregister_receptor, SignalType.all]

lemma unregister_async_global_apply (net : SynapticNetwork) (i : Nat) :
    (unregister_receptor net i).1.async_global_receptors
      = (removeFirst i net.async_global_receptors).1 := by
  simp [unregister_receptor, SignalType.all]

lemma unregister_flag (net : SynapticNetwork) (i : Nat) :
    (unregister_receptor net i).2
      = ((SignalType.all.any fun t =>
            ((net.receptors t).any fun r => r.rid == i)
              || ((net.async_receptors t).any fun r => r.rid == i))
          || (net.global_receptors.any fun r => r.rid == i)
          || (net.async_global_receptors.any fun r => r.rid == i)) := by
  simp [unregister_receptor, SignalType.all, removeFirst_flag, Bool.or_assoc]

lemma mem_signalType_all (t : SignalType) : t ∈ SignalType.all := by
  cases t <;> simp [SignalType.all]

lemma global_or_typed (q : RegReq) : q.isGlobal = true ∨ ∃ t, q.typedFor t = true := by
  rcases q with ⟨c, f, a⟩
  cases f with
  | none => left; rfl
  | some fl =>
    rcases hts : fl.signal_types with _ | ⟨t, ts⟩
    · left; simp [RegReq.isGlobal, hts]
    · right
      exact ⟨t, by simp [RegReq.typedFor, hts, List.elem_iff]⟩

lemma reqList_countP (reqs : List RegReq) (hids : (reqs.map RegReq.cbId).Nodup)
    (q : RegReq) (hq : q ∈ reqs) (P : RegReq → Bool) :
    (((reqs.filter P).map mkReceptor).countP fun r => r.rid == q.cbId)
      = if P q then 1 else 0 := by
  rw [List.countP_map, List.countP_filter]
  have hfun : (fun x => ((fun r => r.rid == q.cbId) ∘ mkReceptor) x && P x)
      = fun x => (x.cbId == q.cbId) && P x := by
    funext x
    simp [mkReceptor, Function.comp]
  rw [hfun, countP_key reqs hids q hq]

lemma reqList_countP_zero (reqs : List RegReq) (i : Nat)
    (hni : i ∉ reqs.map RegReq.cbId) (P : RegReq → Bool) :
    (((reqs.filter P).map mkReceptor).countP fun r => r.rid == i) = 0 := by
  rw [List.countP_map, List.countP_filter]
  refine List.countP_eq_zero.mpr fun x hx => ?_
  have hne : x.cbId ≠ i := by
    intro hc
    exact hni (hc ▸ List.mem_map_of_mem RegReq.cbId hx)
  simp [mkReceptor, Function.comp, hne]

/-- All subscription tables free of receptor id `i`. -/
def ridFree (net : SynapticNetwork) (i : Nat) : Prop :=
  (∀ t, ((net.receptors t).countP fun r => r.rid == i) = 0)
    ∧ (∀ t, ((net.async_receptors t).countP fun r => r.rid == i) = 0)
    ∧ (net.global_receptors.countP fun r => r.rid == i) = 0
    ∧ (net.async_global_receptors.countP fun r => r.rid == i) = 0

lemma ridFree_flag_false (net : SynapticNetwork) (i : Nat) (h : ridFree net i) :
    (unregister_receptor net i).2 = false := by
  obtain ⟨h1, h2, h3, h4⟩ := h
  have hany : ∀ l : List Receptor, (l.countP fun r => r.rid == i) = 0 →
      (l.any fun r => r.rid == i) = false := by
    intro l hl
    rw [← Bool.not_eq_true, List.any_eq_true]
    rintro ⟨a, ha, hpa⟩
    have : 0 < l.countP fun r => r.rid == i := List.countP_pos_iff.mpr ⟨a, ha, hpa⟩
    omega
  rw [unregister_flag]
  simp [SignalType.all, hany _ (h1 _), hany _ (h2 _), hany _ h3, hany _ h4]

lemma ridFree_invokedCount (net : SynapticNetwork) (i : Nat) (h : ridFree net i)
    (s : NeuralSignal) : invokedCount net s i = 0 := by
  obtain ⟨h1, h2, h3, h4⟩ := h
  have hle : ∀ (l : List Receptor),
      (((l.filter fun r => receptorFires r s).countP fun r => r.rid == i))
        ≤ l.countP fun r => r.rid == i := by
    intro l
    rw [List.countP_filter]
    exact List.countP_mono_left fun a _ hpa => (Bool.and_eq_true _ _).mp hpa |>.1
  have hs := hle (net.global_receptors ++ net.receptors s.signal_type)
  have ha := hle (net.async_global_receptors ++ net.async_receptors s.signal_type)
  rw [List.countP_append, h3, h1] at hs
  rw [List.countP_append, h4, h2] at ha
  rw [invokedCount, sync_dispatch, async_dispatch]
  omega

lemma unregister_ridFree (net : SynapticNetwork) (i : Nat)
    (hbound : (∀ t, ((net.receptors t).countP fun r => r.rid == i) ≤ 1)
      ∧ (∀ t, ((net.async_receptors t).countP fun r => r.rid == i) ≤ 1)
      ∧ (net.global_receptors.countP fun r => r.rid == i) ≤ 1
      ∧ (net.async_global_receptors.countP fun r => r.rid == i) ≤ 1) :
    ridFree (unregister_receptor net i).1 i := by
  obtain ⟨h1, h2, h3, h4⟩ := hbound
  refine ⟨fun t => ?_, fun t => ?_, ?_, ?_⟩
  · rw [unregister_receptors_apply]
    exact removeFirst_countP_self i _ (h1 t)
  · rw [unregister_async_receptors_apply]
    exact removeFirst_countP_self i _ (h2 t)
  · rw [unregister_global_apply]
    exact removeFirst_countP_self i _ h3
  · rw [unregister_async_global_apply]
    exact removeFirst_countP_self i _ h4

lemma any_of_countP_pos (l : List Receptor) (p : Receptor → Bool)
    (h : 0 < l.countP p) : l.any p = true :=
  List.any_eq_true.mpr (List.countP_pos_iff.mp h)

/-- C4: on a network built from registrations of pairwise distinct callbacks,
unregistering one registered receptor id removes it from every table it was
indexed under (so it reports `true` and no later dispatched signal invokes
that callback), a second unregistration of the same id reports `false`, and
unregistering an id that was never registered reports `false`. -/
theorem unregister_receptor_spec (reqs : List RegReq)
    (hids : (reqs.map RegReq.cbId).Nodup)
    (hwf : ∀ x ∈ reqs, x.wfTypes = true)
    (q : RegReq) (hq : q ∈ reqs) :
    (unregister_receptor (buildNet reqs) q.cbId).2 = true
      ∧ (∀ s, invokedCount (unregister_receptor (buildNet reqs) q.cbId).1 s q.cbId = 0)
      ∧ (unregister_receptor
          (unregister_receptor (buildNet reqs) q.cbId).1 q.cbId).2 = false
      ∧ (∀ i, i ∉ reqs.map RegReq.cbId →
          (unregister_receptor (buildNet reqs) i).2 = false) := by
  have hg : ((buildNet reqs).global_receptors.countP fun r => r.rid == q.cbId)
      = if !q.is_async && q.isGlobal then 1 else 0 := by
    rw [buildNet_global]
    exact reqList_countP reqs hids q hq _
  have hag : ((buildNet reqs).async_global_receptors.countP fun r => r.rid == q.cbId)
      = if q.is_async && q.isGlobal then 1 else 0 := by
    rw [buildNet_async_global]
    exact reqList_countP reqs hids q hq _
  have ht : ∀ t, (((buildNet reqs).receptors t).countP fun r => r.rid == q.cbId)
      = if !q.is_async && q.typedFor t then 1 else 0 := by
    intro t
    rw [buildNet_typed reqs hwf]
    exact reqList_countP reqs hids q hq _
  have hat : ∀ t, (((buildNet reqs).async_receptors t).countP fun r => r.rid == q.cbId)
      = if q.is_async && q.typedFor t then 1 else 0 := by
    intro t
    rw [buildNet_async_typed reqs hwf]
    exact reqList_countP reqs hids q hq _
  have hbound : (∀ t, (((buildNet reqs).receptors t).countP fun r => r.rid == q.cbId) ≤ 1)
      ∧ (∀ t, (((buildNet reqs).async_receptors t).countP fun r => r.rid == q.cbId) ≤ 1)
      ∧ ((buildNet reqs).global_receptors.countP fun r => r.rid == q.cbId) ≤ 1
      ∧ ((buildNet reqs).async_global_receptors.countP fun r => r.rid == q.cbId) ≤ 1 := by
    refine ⟨fun t => ?_, fun t => ?_, ?_, ?_⟩ <;>
      [rw [ht t]; rw [hat t]; rw [hg]; rw [hag]] <;> split <;> omega
  have hfree : ridFree (unregister_receptor (buildNet reqs) q.cbId).1 q.cbId :=
    unregister_ridFree _ _ hbound
  refine ⟨?_, fun s => ridFree_invokedCount _ _ hfree s,
    ridFree_flag_false _ _ hfree, fun i hni => ?_⟩
  · rw [unregister_flag]
    rcases global_or_typed q with hG | ⟨t0, hT⟩
    · cases haq : q.is_async
      · have h1 : (buildNet reqs).global_receptors.any (fun r => r.rid == q.cbId) = true := by
          refine any_of_countP_pos _ _ ?_
          rw [hg, haq, hG]
          simp
        simp [h1]
      · have h1 : (buildNet reqs).async_global_receptors.any (fun r => r.rid == q.cbId) = true := by
          refine any_of_countP_pos _ _ ?_
          rw [hag, haq, hG]
          simp
        simp [h1]
    · have h1 : (SignalType.all.any fun t =>
          (((buildNet reqs).receptors t).any fun r => r.rid == q.cbId)
            || (((buildNet reqs).async_receptors t).any fun r => r.rid == q.cbId)) = true := by
        rw [List.any_eq_true]
        refine ⟨t0, mem_signalType_all t0, ?_⟩
        cases haq : q.is_async
        · have h2 : ((buildNet reqs).receptors t0).any (fun r => r.rid == q.cbId) = true := by
            refine any_of_countP_pos _ _ ?_
            rw [ht t0, haq, hT]
            simp
          simp [h2]
        · have h2 : ((buildNet reqs).async_receptors t0).any (fun r => r.rid == q.cbId) = true := by
            refine any_of_countP_pos _ _ ?_
            rw [hat t0, haq, hT]
            simp
          simp [h2]
      simp [h1]
  · have hfree0 : ridFree (buildNet reqs) i := by
      refine ⟨fun t => ?_, fun t => ?_, ?_, ?_⟩
      · rw [buildNet_typed reqs hwf]
        exact reqList_countP_zero reqs i hni _
      · rw [buildNet_async_typed reqs hwf]
        exact reqList_countP_zero reqs i hni _
      · rw [buildNet_global]
        exact reqList_countP_zero reqs i hni _
      · rw [buildNet_async_global]
        exact reqList_countP_zero reqs i hni _
    exact ridFree_flag_false _ _ hfree0

/-- Witness for C4, on the C1 registration scenario. -/
theorem unregister_receptor_spec_witness :
    (unregister_receptor (buildNet c1Reqs) 1).2 = true
      ∧ invokedCount (unregister_receptor (buildNet c1Reqs) 1).1 c1Signal 1 = 0
      ∧ (unregister_receptor (unregister_receptor (buildNet c1Reqs) 1).1 1).2 = false := by
  have h := unregister_receptor_spec c1Reqs (by decide) (by decide)
      { cbId := 1, filter := some c1Filter, is_async := false } (by simp [c1Reqs])
  exact ⟨h.1, h.2.1 c1Signal, h.2.2.1⟩

/-! ## Neuron deactivation (`neuron.py`)

`Neuron.deactivate` first unregisters every owned receptor id from the
synaptic network and clears `receptor_ids`, then runs the subclass hook
`_deactivate` (abstracted here by the boolean `shutdownRaises`), and only on
success clears `is_active`; an exception from the hook is logged and
re-raised (the mutations already made persist). -/

/-- The `Neuron` state that the claims read: `name`, statistics and the
reference to the network are omitted (the network is passed explicitly). -/
structure Neuron where
  is_active : Bool
  receptor_ids : List Nat

/-- Embeds `Neuron.deactivate` (`neuron.py` lines 69–88).  Returns the
updated neuron, the updated network, and whether an exception propagated to
the caller. -/
def Neuron.deactivate (nrn : Neuron) (net : SynapticNetwork)
    (shutdownRaises : Bool) : Neuron × SynapticNetwork × Bool :=
  if !nrn.is_active then
    (nrn, net, false)
  else
    let net1 := nrn.receptor_ids.foldl (fun n i => (unregister_receptor n i).1) net
    let nrn1 : Neuron := { nrn with receptor_ids := [] }
    if shutdownRaises then
      (nrn1, net1, true)
    else
      ({ nrn1 with is_active := false }, net1, false)

/-- Receptor id `i` occurs at most once in each subscription table (true of
every table built by registrations of pairwise distinct callbacks). -/
def ridAtMostOnce (net : SynapticNetwork) (i : Nat) : Prop :=
  (∀ t, (((net.receptors t).countP fun r => r.rid == i)) ≤ 1)
    ∧ (∀ t, (((net.async_receptors t).countP fun r => r.rid == i)) ≤ 1)
    ∧ ((net.global_receptors.countP fun r => r.rid == i)) ≤ 1
    ∧ ((net.async_global_receptors.countP fun r => r.rid == i)) ≤ 1

lemma unregister_preserves_ridAtMostOnce (net : SynapticNetwork) (i j : Nat)
    (h : ridAtMostOnce net i) : ridAtMostOnce (unregister_receptor net j).1 i := by
  obtain ⟨h1, h2, h3, h4⟩ := h
  refine ⟨fun t => ?_, fun t => ?_, ?_, ?_⟩
  · rw [unregister_receptors_apply]
    exact le_trans (removeFirst_countP_le j i _) (h1 t)
  · rw [unregister_async_receptors_apply]
    exact le_trans (removeFirst_countP_le j i _) (h2 t)
  · rw [unregister_global_apply]
    exact le_trans (removeFirst_countP_le j i _) h3
  · rw [unregister_async_global_apply]
    exact le_trans (removeFirst_countP_le j i _) h4

lemma unregister_preserves_ridFree (net : SynapticNetwork) (i j : Nat)
    (h : ridFree net i) : ridFree (unregister_receptor net j).1 i := by
  obtain ⟨h1, h2, h3, h4⟩ := h
  refine ⟨fun t => ?_, fun t => ?_, ?_, ?_⟩
  · rw [unregister_receptors_apply]
    exact Nat.le_zero.mp (h1 t ▸ removeFirst_countP_le j i _)
  · rw [unregister_async_receptors_apply]
    exact Nat.le_zero.mp (h2 t ▸ removeFirst_countP_le j i _)
  · rw [unregister_global_apply]
    exact Nat.le_zero.mp (h3 ▸ removeFirst_countP_le j i _)
  · rw [unregister_async_global_apply]
    exact Nat.le_zero.mp (h4 ▸ removeFirst_countP_le j i _)

lemma foldl_unregister_preserves_ridFree (ids : List Nat) (net : SynapticNetwork)
    (i : Nat) (h : ridFree net i) :
    ridFree (ids.foldl (fun n j => (unregister_receptor n j).1) net) i := by
  induction ids generalizing net with
  | nil => exact h
  | cons j rest ih => exact ih _ (unregister_preserves_ridFree net i j h)

lemma foldl_unregister_ridFree (ids : List Nat) (net : SynapticNetwork)
    (hb : ∀ i ∈ ids, ridAtMostOnce net i) :
    ∀ i ∈ ids, ridFree (ids.foldl (fun n j => (unregister_receptor n j).1) net) i := by
  induction ids generalizing net with
  | nil => intro i hi; cases hi
  | cons j rest ih =>
    intro i hi
    rcases List.mem_cons.mp hi with hij | hir
    · subst hij
      exact foldl_unregister_preserves_ridFree rest _ i
        (unregister_ridFree net i (hb i (by simp)))
    · exact ih _ (fun k hk => unregister_preserves_ridAtMostOnce net k j
        (hb k (by simp [hk]))) i hir

/-- C5: deactivating an active neuron empties its owned-subscription list
and removes every owned receptor id from the bus — also when the
component-specific shutdown hook raises. -/
theorem deactivate_clears_subscriptions (nrn : Neuron) (net : SynapticNetwork)
    (shutdownRaises : Bool) (hactive : nrn.is_active = true)
    (hb : ∀ i ∈ nrn.receptor_ids, ridAtMostOnce net i) :
    (nrn.deactivate net shutdownRaises).1.receptor_ids = []
      ∧ ∀ i ∈ nrn.receptor_ids,
          ridFree (nrn.deactivate net shutdownRaises).2.1 i := by
  have hres := foldl_unregister_ridFree nrn.receptor_ids net hb
  cases shutdownRaises <;>
    simp [Neuron.deactivate, hactive] <;>
    exact fun i hi => hres i hi

/-- Registration scenario of the C5 witness: one sync global receptor. -/
def c5Reqs : List RegReq :=
  [{ cbId := 1, filter := none, is_async := false }]

/-- Witness for C5: with the shutdown hook raising, the subscription list is
emptied and the receptor is gone from the bus. -/
theorem deactivate_clears_subscriptions_witness :
    (Neuron.deactivate { is_active := true, receptor_ids := [1] }
        (buildNet c5Reqs) true).1.receptor_ids = []
      ∧ ridFree (Neuron.deactivate { is_active := true, receptor_ids := [1] }
          (buildNet c5Reqs) true).2.1 1 := by
  have hb : ∀ i ∈ (Neuron.mk true [1]).receptor_ids,
      ridAtMostOnce (buildNet c5Reqs) i := by
    intro i hi
    have hi1 : i = 1 := by simpa using hi
    subst hi1
    exact ⟨fun t => by cases t <;> decide, fun t => by cases t <;> decide,
      by decide, by decide⟩
  have h := deactivate_clears_subscriptions
      { is_active := true, receptor_ids := [1] } (buildNet c5Reqs) true rfl hb
  exact ⟨h.1, h.2 1 (by simp)⟩

/-! ## The cortex coordinator (`central_cortex.py`)

`CortexBase` keeps the membership set, the active set, the activation order
(append on register) and the deactivation order (insert at the front on
register).  Neurons are identified by a number; each neuron's own `is_active`
flag is the map `neuron_active`, and whether a neuron's `_activate` or
`_deactivate` hook raises is given by environment functions.  Python `set`
add/remove are embedded on duplicate-free lists. -/

/-- Python `set.add` on a duplicate-free list. -/
def setAdd (l : List Nat) (n : Nat) : List Nat :=
  if n ∈ l then l else l ++ [n]

/-- Python `set.remove` / `set.discard` on a duplicate-free list. -/
def setRemove (l : List Nat) (n : Nat) : List Nat :=
  l.filter fun x => x != n

/-- The `CortexBase` state (the reference to the synaptic network is kept by
the neurons themselves, embedded separately by `Neuron.deactivate`; the order
lists and sets here never depend on it). -/
structure CortexState where
  neurons : List Nat
  active_neurons : List Nat
  activation_order : List Nat
  deactivation_order : List Nat
  neuron_active : Nat → Bool

/-- A freshly constructed `CortexBase`. -/
def CortexState.init : CortexState :=
  { neurons := []
    active_neurons := []
    activation_order := []
    deactivation_order := []
    neuron_active := fun _ => false }

/-- Embeds `CortexBase.register_neuron` (lines 30–44): no-op when already
registered, else append to the membership and activation order and insert at
the front of the deactivation order. -/
def register_neuron (st : CortexState) (n : Nat) : CortexState :=
  if n ∈ st.neurons then st
  else
    { st with
        neurons := st.neurons ++ [n]
        activation_order := st.activation_order ++ [n]
        deactivation_order := n :: st.deactivation_order }

/-- Embeds `CortexBase.activate_neuron` (lines 72–92): guards, then
`neuron.activate()` (which warns and returns when the neuron believes it is
already active, raises when the subclass hook raises — given by `envAct` —
and otherwise marks the neuron active), then adds to the active set; an
exception propagates to the caller (`raise`). -/
def activate_neuron (envAct : Nat → Bool) (st : CortexState) (n : Nat) :
    CortexState × Bool :=
  if n ∉ st.neurons then (st, false)
  else if n ∈ st.active_neurons then (st, false)
  else if st.neuron_active n then
    ({ st with active_neurons := setAdd st.active_neurons n }, false)
  else if envAct n then (st, true)
  else
    ({ st with
        neuron_active := fun m => if m = n then true else st.neuron_active m
        active_neurons := setAdd st.active_neurons n }, false)

/-- Embeds `CortexBase.deactivate_neuron` (lines 94–114): guards, then
`neuron.deactivate()` (which warns and returns when the neuron believes it is
already inactive, re-raises when the shutdown hook raises — given by `env` —
and otherwise clears the neuron's flag), then discards from the active set;
an exception is logged and re-raised to the caller. -/
def deactivate_neuron (env : Nat → Bool) (st : CortexState) (n : Nat) :
    CortexState × Bool :=
  if n ∉ st.neurons then (st, false)
  else if n ∉ st.active_neurons then (st, false)
  else if !st.neuron_active n then
    ({ st with active_neurons := setRemove st.active_neurons n }, false)
  else if env n then (st, true)
  else
    ({ st with
        neuron_active := fun m => if m = n then false else st.neuron_active m
        active_neurons := setRemove st.active_neurons n }, false)

/-- Embeds `CortexBase.unregister_neuron` (lines 46–70): no-op when not
registered; deactivate first when the neuron is active — an exception from
that deactivation propagates and the removals below never run — then remove
from the sets and both order lists (`list.remove`, first occurrence). -/
def removeNeuronRecord (st : CortexState) (n : Nat) : CortexState :=
  { st with
      neurons := setRemove st.neurons n
      active_neurons := setRemove st.active_neurons n
      activation_order := st.activation_order.erase n
      deactivation_order := st.deactivation_order.erase n }

def unregister_neuron (env : Nat → Bool) (st : CortexState) (n : Nat) :
    CortexState × Bool :=
  if n ∉ st.neurons then (st, false)
  else if st.neuron_active n then
    if (deactivate_neuron env st n).2 then ((deactivate_neuron env st n).1, true)
    else (removeNeuronRecord (deactivate_neuron env st n).1 n, false)
  else (removeNeuronRecord st n, false)

/-- Embeds `CortexBase.deactivate_all` (lines 129–141): walk the deactivation
order, deactivating each still-active neuron, catching (and merely logging)
every exception. -/
def deactivate_all (env : Nat → Bool) (st : CortexState) : CortexState :=
  st.deactivation_order.foldl
    (fun acc n =>
      if n ∈ acc.active_neurons then (deactivate_neuron env acc n).1 else acc)
    st

/-- The operations a caller can perform on one cortex group. -/
inductive CortexOp where
  | register (n : Nat)
  | unregister (n : Nat)
  | activate (n : Nat)
  | deactivate (n : Nat)

/-- Apply one operation (exceptions propagate to the caller and are dropped
there; the state reached is the same). -/
def applyCortexOp (env envAct : Nat → Bool) (st : CortexState) :
    CortexOp → CortexState
  | .register n => register_neuron st n
  | .unregister n => (unregister_neuron env st n).1
  | .activate n => (activate_neuron envAct st n).1
  | .deactivate n => (deactivate_neuron env st n).1

/-- Apply a sequence of operations to a fresh cortex. -/
def applyCortexOps (env envAct : Nat → Bool) (ops : List CortexOp) : CortexState :=
  ops.foldl (applyCortexOp env envAct) CortexState.init

/-- The coordinator bookkeeping invariant: the deactivation order is the
reverse of the activation order, which is duplicate-free and lists exactly
the registered neurons. -/
def cortexInv (st : CortexState) : Prop :=
  st.deactivation_order = st.activation_order.reverse
    ∧ st.activation_order.Nodup
    ∧ (∀ n, n ∈ st.activation_order ↔ n ∈ st.neurons)

lemma reverse_erase_of_nodup (l : List Nat) (h : l.Nodup) (n : Nat) :
    l.reverse.erase n = (l.erase n).reverse := by
  rw [List.Nodup.erase_eq_filter (List.nodup_reverse.mpr h) n,
    List.Nodup.erase_eq_filter h n, List.filter_reverse]

lemma deactivate_neuron_preserves_orders (env : Nat → Bool) (st : CortexState)
    (n : Nat) :
    (deactivate_neuron env st n).1.neurons = st.neurons
      ∧ (deactivate_neuron env st n).1.activation_order = st.activation_order
      ∧ (deactivate_neuron env st n).1.deactivation_order = st.deactivation_order := by
  rw [deactivate_neuron]
  split
  · exact ⟨rfl, rfl, rfl⟩
  · split
    · exact ⟨rfl, rfl, rfl⟩
    · split
      · exact ⟨rfl, rfl, rfl⟩
      · split
        · exact ⟨rfl, rfl, rfl⟩
        · exact ⟨rfl, rfl, rfl⟩

lemma activate_neuron_preserves_orders (envAct : Nat → Bool) (st : CortexState)
    (n : Nat) :
    (activate_neuron envAct st n).1.neurons = st.neurons
      ∧ (activate_neuron envAct st n).1.activation_order = st.activation_order
      ∧ (activate_neuron envAct st n).1.deactivation_order = st.deactivation_order := by
  rw [activate_neuron]
  split
  · exact ⟨rfl, rfl, rfl⟩
  · split
    · exact ⟨rfl, rfl, rfl⟩
    · split
      · exact ⟨rfl, rfl, rfl⟩
      · split
        · exact ⟨rfl, rfl, rfl⟩
        · exact ⟨rfl, rfl, rfl⟩

lemma cortexInv_step (env envAct : Nat → Bool) (st : CortexState)
    (h : cortexInv st) (op : CortexOp) :
    cortexInv (applyCortexOp env envAct st op) := by
  obtain ⟨hrev, hnd, hmem⟩ := h
  cases op with
  | register n =>
    by_cases hn : n ∈ st.neurons
    · simpa [applyCortexOp, register_neuron, hn] using ⟨hrev, hnd, hmem⟩
    · have hna : n ∉ st.activation_order := fun hc => hn ((hmem n).mp hc)
      refine ⟨?_, ?_, ?_⟩ <;> simp [applyCortexOp, register_neuron, hn]
      · simp [hrev]
      · simp [List.nodup_append, hnd, hna]
      · intro m
        rcases hmem m with ⟨h1, h2⟩
        constructor
        · rintro (hm | hm)
          · exact Or.inl (h1 hm)
          · exact Or.inr hm
        · rintro (hm | hm)
          · exact Or.inl (h2 hm)
          · exact Or.inr hm
  | unregister n =>
    have hremove : ∀ st1 : CortexState, st1.neurons = st.neurons →
        st1.activation_order = st.activation_order →
        st1.deactivation_order = st.deactivation_order →
        cortexInv (removeNeuronRecord st1 n) := by
      intro st1 e1 e2 e3
      refine ⟨?_, ?_, ?_⟩
      · show st1.deactivation_order.erase n = (st1.activation_order.erase n).reverse
        rw [e2, e3, hrev, reverse_erase_of_nodup _ hnd]
      · show (st1.activation_order.erase n).Nodup
        rw [e2]
        exact hnd.erase n
      · intro m
        show m ∈ st1.activation_order.erase n ↔ m ∈ setRemove st1.neurons n
        rw [e1, e2, setRemove, List.mem_filter, hnd.mem_erase_iff]
        constructor
        · rintro ⟨hne, hm⟩
          exact ⟨(hmem m).mp hm, by simpa using hne⟩
        · rintro ⟨hm, hne⟩
          exact ⟨by simpa using hne, (hmem m).mpr hm⟩
    by_cases hn : n ∈ st.neurons
    · rw [applyCortexOp, unregister_neuron, if_neg (by simpa using hn)]
      by_cases hact : st.neuron_active n = true
      · have hpres := deactivate_neuron_preserves_orders env st n
        rw [if_pos hact]
        by_cases hflag : (deactivate_neuron env st n).2 = true
        · rw [if_pos hflag]
          exact ⟨hpres.2.2 ▸ hpres.2.1 ▸ hrev, hpres.2.1 ▸ hnd,
            fun m => hpres.2.1 ▸ hpres.1 ▸ hmem m⟩
        · rw [if_neg hflag]
          exact hremove _ hpres.1 hpres.2.1 hpres.2.2
      · rw [if_neg hact]
        exact hremove st rfl rfl rfl
    · rw [applyCortexOp, unregister_neuron, if_pos (by simpa using hn)]
      exact ⟨hrev, hnd, hmem⟩
  | activate n =>
    have hpres := activate_neuron_preserves_orders envAct st n
    exact ⟨hpres.2.2 ▸ hpres.2.1 ▸ hrev, hpres.2.1 ▸ hnd,
      fun m => hpres.2.1 ▸ hpres.1 ▸ hmem m⟩
  | deactivate n =>
    have hpres := deactivate_neuron_preserves_orders env st n
    exact ⟨hpres.2.2 ▸ hpres.2.1 ▸ hrev, hpres.2.1 ▸ hnd,
      fun m => hpres.2.1 ▸ hpres.1 ▸ hmem m⟩

/-- C6: after any sequence of register/unregister (and activate/deactivate)
operations on a fresh cortex group, the deactivation order list is exactly
the reverse of the activation order list — so `deactivate_all`, which walks
the deactivation order, visits neurons in reverse registration order. -/
theorem deactivation_order_reverse_of_activation (env envAct : Nat → Bool)
    (ops : List CortexOp) :
    (applyCortexOps env envAct ops).deactivation_order
      = (applyCortexOps env envAct ops).activation_order.reverse := by
  have hinv : cortexInv (applyCortexOps env envAct ops) := by
    rw [applyCortexOps]
    induction ops using List.reverseRecOn with
    | nil => exact ⟨rfl, List.nodup_nil, by simp [CortexState.init]⟩
    | append_singleton rest op ih =>
      rw [List.foldl_append, List.foldl_cons, List.foldl_nil]
      exact cortexInv_step env envAct _ ih op
  exact hinv.1

/-- The failing-deactivation environment of the C9 counterexample: neuron 1's
shutdown hook raises. -/
def c9Env : Nat → Bool := fun n => n == 1

/-- Cortex state of the C9 counterexample: neuron 1 registered and active. -/
def c9St : CortexState :=
  { neurons := [1]
    active_neurons := [1]
    activation_order := [1]
    deactivation_order := [1]
    neuron_active := fun n => n == 1 }

/-- C9 (counterexample): when the component-specific shutdown hook raises,
`Neuron.deactivate` re-raises, and `CortexBase.deactivate_neuron` re-raises
in turn — the failure does propagate to the caller rather than being
swallowed. -/
theorem c9_deactivation_failure_reraises :
    (Neuron.deactivate { is_active := true, receptor_ids := [] }
        SynapticNetwork.empty true).2.2 = true
      ∧ (deactivate_neuron c9Env c9St 1).2 = true := by
  exact ⟨rfl, by decide⟩

lemma deactivate_all_fold (env : Nat → Bool) (order : List Nat) :
    ∀ st : CortexState, (∀ n ∈ st.active_neurons, n ∈ st.neurons) →
      (∀ n ∈ st.active_neurons, st.neuron_active n = true) →
      (order.foldl
          (fun acc n =>
            if n ∈ acc.active_neurons then (deactivate_neuron env acc n).1 else acc)
          st).active_neurons
        = st.active_neurons.filter fun n => !(order.contains n) || env n := by
  induction order with
  | nil =>
    intro st _ _
    simp
  | cons n rest ih =>
    intro st hsub hconsist
    rw [List.foldl_cons]
    by_cases hn : n ∈ st.active_neurons
    · rw [if_pos hn]
      have hinn : ¬(n ∉ st.neurons) := by simpa using hsub n hn
      have hact : st.neuron_active n = true := hconsist n hn
      rw [deactivate_neuron, if_neg hinn, if_neg (by simpa using hn), hact]
      by_cases henv : env n = true
      · rw [if_neg (by simp), if_pos henv]
        rw [ih st hsub hconsist]
        refine List.filter_congr ?_
        intro m hm
        by_cases hmn : m = n
        · subst hmn
          simp [henv]
        · simp [List.elem_cons, hmn]
      · rw [if_neg (by simp), if_neg henv]
        have hsub1 : ∀ m ∈ setRemove st.active_neurons n, m ∈ st.neurons := by
          intro m hm
          exact hsub m (List.mem_of_mem_filter hm)
        have hcon1 : ∀ m ∈ setRemove st.active_neurons n,
            (fun k => if k = n then false else st.neuron_active k) m = true := by
          intro m hm
          have hmn : (m != n) = true := (List.mem_filter.mp hm).2
          have : m ≠ n := by simpa using hmn
          simpa [this] using hconsist m (List.mem_of_mem_filter hm)
        rw [ih _ hsub1 hcon1]
        show (setRemove st.active_neurons n).filter _ = _
        rw [setRemove, List.filter_filter]
        refine List.filter_congr ?_
        intro m hm
        by_cases hmn : m = n
        · subst hmn
          simp [henv]
        · simp [List.elem_cons, hmn]
    · rw [if_neg hn, ih st hsub hconsist]
      refine List.filter_congr ?_
      intro m hm
      have hmn : m ≠ n := fun hc => hn (hc ▸ hm)
      simp [List.elem_cons, hmn]

/-- C9 (amended): a shutdown failure is re-raised through
`Neuron.deactivate` and `deactivate_neuron` to the caller, but
`deactivate_all` catches every such failure and continues, so after it runs
every active neuron whose shutdown hook does not raise has been deactivated
— only the failing ones stay active. -/
theorem deactivate_all_progress (env : Nat → Bool) (st : CortexState)
    (hsub : ∀ n ∈ st.active_neurons, n ∈ st.neurons)
    (hconsist : ∀ n ∈ st.active_neurons, st.neuron_active n = true)
    (hord : ∀ n ∈ st.active_neurons, n ∈ st.deactivation_order) :
    (deactivate_all env st).active_neurons = st.active_neurons.filter env := by
  rw [deactivate_all, deactivate_all_fold env st.deactivation_order st hsub hconsist]
  refine List.filter_congr ?_
  intro m hm
  have hcm : st.deactivation_order.contains m = true := by
    simpa [List.elem_iff] using hord m hm
  simp only [hcm, Bool.not_true, Bool.false_or]

/-- Cortex state of the C9 witness: neurons 1 and 2 active, 2 registered
last; neuron 1's shutdown hook raises (`c9Env`). -/
def c9wSt : CortexState :=
  { neurons := [1, 2]
    active_neurons := [1, 2]
    activation_order := [1, 2]
    deactivation_order := [2, 1]
    neuron_active := fun n => n == 1 || n == 2 }

/-- Witness for the amended C9: neuron 2 is still torn down although neuron
1's shutdown raises. -/
theorem deactivate_all_progress_witness :
    (deactivate_all c9Env c9wSt).active_neurons = [1] := by
  have h := deactivate_all_progress c9Env c9wSt (by decide) (by decide) (by decide)
  rw [h]
  decide

/-! ## The immune system (`immune_system.py`)

Incident types, recovery strategies, the per-neuron health/failure/quarantine
bookkeeping and `handle_exception` are embedded below.  Handlers and fallback
callables are external side effects identified by numbers; invoking them is
modelled by the invocation list that `handle_exception` returns (their own
exceptions are caught by the source, so they never change which handlers
run).  The bounded incident history, timestamps and logging are omitted (no
claim reads them).  Health values are embedded as exact rationals. -/

/-- Embeds `NeuralExceptionType`. -/
inductive NeuralExceptionType where
  | SENSOR
  | ACTUATOR
  | CONNECTOR
  | NETWORK
  | CONFIG
  | RESOURCE
  | SYSTEM
  | UNKNOWN
deriving DecidableEq, Repr

/-- Embeds `RecoveryStrategy`. -/
inductive RecoveryStrategy where
  | RETRY
  | DEGRADATION
  | ISOLATION
  | RESTART
deriving DecidableEq, Repr

/-- Embeds `RecoveryConfig`; `delay_seconds` and `backoff_factor` are read
only by the retry decorator's sleeps and are omitted.  The fallback callable
is identified by a number. -/
structure RecoveryConfig where
  strategy : RecoveryStrategy
  max_attempts : Nat
  fallback_function : Option Nat
deriving DecidableEq, Repr

/-- Embeds a `NeuralException`: its type and the optional neuron name (the
message, wrapped cause, recovery hint and timestamp are not read by
`handle_exception`'s control flow). -/
structure NeuralException where
  exception_type : NeuralExceptionType
  neuron_name : Option String
deriving DecidableEq, Repr

/-- Embeds the `ImmuneSystem` state; handlers are kept per type in
registration order, the quarantined set as a duplicate-free list, and the
three per-neuron dicts as optional-valued maps. -/
structure ImmuneSystem where
  exception_handlers : NeuralExceptionType → List Nat
  quarantined_neurons : List String
  recovery_configs : String → Option RecoveryConfig
  failure_counters : String → Option Nat
  neuron_health : String → Option ℚ

/-- A freshly constructed `ImmuneSystem`. -/
def ImmuneSystem.init : ImmuneSystem :=
  { exception_handlers := fun _ => []
    quarantined_neurons := []
    recovery_configs := fun _ => none
    failure_counters := fun _ => none
    neuron_health := fun _ => none }

/-- Python `set.add` on a duplicate-free string list. -/
def strSetAdd (l : List String) (x : String) : List String :=
  if x ∈ l then l else l ++ [x]

/-- Python `set.remove` on a duplicate-free string list. -/
def strSetRemove (l : List String) (x : String) : List String :=
  l.filter fun y => y != x

/-- Embeds `register_exception_handler`. -/
def register_exception_handler (st : ImmuneSystem) (t : NeuralExceptionType)
    (handler : Nat) : ImmuneSystem :=
  { st with
      exception_handlers := fun u =>
        if u = t then st.exception_handlers u ++ [handler]
        else st.exception_handlers u }

/-- Embeds `_update_neuron_health`: clamp `current + delta` into `[0, 1]`,
defaulting a missing entry to `1.0`. -/
def update_neuron_health (st : ImmuneSystem) (name : String) (delta : ℚ) :
    ImmuneSystem :=
  let current := (st.neuron_health name).getD 1
  let newValue := max 0 (min 1 (current + delta))
  { st with
      neuron_health := fun m => if m = name then some newValue else st.neuron_health m }

/-- Embeds `quarantine_neuron`: add to the quarantined set, then drop the
health value by `1.0`. -/
def quarantine_neuron (st : ImmuneSystem) (name : String) : ImmuneSystem :=
  update_neuron_health
    { st with quarantined_neurons := strSetAdd st.quarantined_neurons name }
    name (-1)

/-- Embeds `release_neuron`: only for a quarantined neuron, remove it from
the set, raise health by `0.5` and reset its failure counter. -/
def release_neuron (st : ImmuneSystem) (name : String) : ImmuneSystem :=
  if name ∈ st.quarantined_neurons then
    let st1 := { st with quarantined_neurons := strSetRemove st.quarantined_neurons name }
    let st2 := update_neuron_health st1 name (1/2)
    { st2 with
        failure_counters := fun m => if m = name then some 0 else st2.failure_counters m }
  else st

/-- Embeds `is_quarantined`. -/
def is_quarantined (st : ImmuneSystem) (name : String) : Bool :=
  st.quarantined_neurons.contains name

/-- Embeds `heal_neuron`: no effect on a quarantined neuron; otherwise raise
health and, once it exceeds `0.8`, reset the failure counter. -/
def heal_neuron (st : ImmuneSystem) (name : String) (amount : ℚ) : ImmuneSystem :=
  if name ∈ st.quarantined_neurons then st
  else
    let st1 := update_neuron_health st name amount
    if (st1.neuron_health name).getD 0 > 4/5 then
      { st1 with
          failure_counters := fun m => if m = name then some 0 else st1.failure_counters m }
    else st1

/-- Embeds `_apply_recovery_strategy`: once the failure count strictly
exceeds `max_attempts`, an `ISOLATION` policy quarantines the neuron and a
`DEGRADATION` policy invokes the fallback callable (an external effect whose
own failure is caught; the immune state is unchanged). -/
def apply_recovery_named (st : ImmuneSystem) (name : String) : ImmuneSystem :=
  match st.recovery_configs name with
  | none => st
  | some config =>
    if (st.failure_counters name).getD 0 > config.max_attempts then
      if config.strategy = RecoveryStrategy.ISOLATION then
        quarantine_neuron st name
      else st
    else st

def apply_recovery_strategy (st : ImmuneSystem) (e : NeuralException) : ImmuneSystem :=
  if !optStrTruthy e.neuron_name then st
  else apply_recovery_named st (e.neuron_name.getD "")

/-- Embeds `handle_exception` (lines 340–382): record the incident (history
omitted), then — when the incident names a neuron — drop its health by `0.2`,
bump its failure counter; invoke the handlers registered for the incident's
type and then the wildcard (`UNKNOWN`) handlers, each caught individually;
finally apply the named neuron's recovery policy when one is registered.
Returns the new state and the handler invocation list. -/
def handle_named_update (st : ImmuneSystem) (name : String) : ImmuneSystem :=
  let sth := update_neuron_health st name (-(1/5))
  { sth with
      failure_counters := fun m =>
        if m = name then some ((sth.failure_counters m).getD 0 + 1)
        else sth.failure_counters m }

def handle_exception (st : ImmuneSystem) (e : NeuralException) :
    ImmuneSystem × List Nat :=
  let st1 :=
    if optStrTruthy e.neuron_name then handle_named_update st (e.neuron_name.getD "")
    else st
  let invoked := st1.exception_handlers e.exception_type
      ++ st1.exception_handlers NeuralExceptionType.UNKNOWN
  let st2 :=
    if optStrTruthy e.neuron_name
        && (st1.recovery_configs (e.neuron_name.getD "")).isSome then
      apply_recovery_strategy st1 e
    else st1
  (st2, invoked)

lemma mem_strSetAdd_iff (l : List String) (x y : String) :
    y ∈ strSetAdd l x ↔ y ∈ l ∨ y = x := by
  rw [strSetAdd]
  split
  · next hx =>
    constructor
    · exact Or.inl
    · rintro (h | rfl) <;> assumption
  · simp

lemma handle_named_update_counters_self (st : ImmuneSystem) (name : String) :
    (handle_named_update st name).failure_counters name
      = some ((st.failure_counters name).getD 0 + 1) := by
  simp [handle_named_update, update_neuron_health]

lemma handle_named_update_quarantined (st : ImmuneSystem) (name : String) :
    (handle_named_update st name).quarantined_neurons = st.quarantined_neurons := rfl

lemma handle_named_update_configs (st : ImmuneSystem) (name : String) :
    (handle_named_update st name).recovery_configs = st.recovery_configs := rfl

lemma handle_named_update_handlers (st : ImmuneSystem) (name : String) :
    (handle_named_update st name).exception_handlers = st.exception_handlers := rfl

lemma handle_exception_invoked (st : ImmuneSystem) (e : NeuralException) :
    (handle_exception st e).2
      = st.exception_handlers e.exception_type
          ++ st.exception_handlers NeuralExceptionType.UNKNOWN := by
  rw [handle_exception]
  by_cases h : optStrTruthy e.neuron_name = true <;>
    simp [h, handle_named_update_handlers]

/-- C10: one `handle` call invokes, for an incident of the `UNKNOWN` type,
every `UNKNOWN`-registered handler twice (once in the specific-type pass and
once in the wildcard pass); for an incident of any other type, each handler
registered for that type and each wildcard handler exactly once. -/
theorem handle_exception_handler_invocations (st : ImmuneSystem)
    (e : NeuralException) (h : Nat) :
    (handle_exception st e).2.count h
      = if e.exception_type = NeuralExceptionType.UNKNOWN
        then 2 * (st.exception_handlers NeuralExceptionType.UNKNOWN).count h
        else (st.exception_handlers e.exception_type).count h
            + (st.exception_handlers NeuralExceptionType.UNKNOWN).count h := by
  rw [handle_exception_invoked, List.count_append]
  by_cases ht : e.exception_type = NeuralExceptionType.UNKNOWN
  · rw [ht, if_pos rfl]
    omega
  · rw [if_neg ht]

lemma apply_recovery_isolation (st : ImmuneSystem) (e : NeuralException)
    (name : String) (K : Nat) (fb : Option Nat)
    (he : e.neuron_name = some name) (hname : ¬name = "")
    (hcfg : st.recovery_configs name
      = some { strategy := .ISOLATION, max_attempts := K, fallback_function := fb }) :
    (apply_recovery_strategy st e).failure_counters = st.failure_counters
      ∧ (name ∈ (apply_recovery_strategy st e).quarantined_neurons ↔
          (name ∈ st.quarantined_neurons ∨ K < (st.failure_counters name).getD 0)) := by
  have htr : optStrTruthy e.neuron_name = true := by
    simp [he, optStrTruthy, hname]
  rw [apply_recovery_strategy, if_neg (by simp [htr])]
  have hget : e.neuron_name.getD "" = name := by simp [he]
  rw [hget, apply_recovery_named]
  simp only [hcfg]
  by_cases hgt : (st.failure_counters name).getD 0 > K
  · rw [if_pos hgt]
    simp only [if_true]
    refine ⟨rfl, ?_⟩
    show name ∈ strSetAdd st.quarantined_neurons name ↔ _
    rw [mem_strSetAdd_iff]
    constructor
    · intro _
      exact Or.inr hgt
    · intro _
      exact Or.inr rfl
  · rw [if_neg hgt]
    exact ⟨rfl, by simpa using fun h => absurd h hgt⟩

lemma handle_step_isolation (st : ImmuneSystem) (e : NeuralException)
    (name : String) (K : Nat) (fb : Option Nat)
    (he : e.neuron_name = some name) (hname : ¬name = "")
    (hcfg : st.recovery_configs name
      = some { strategy := .ISOLATION, max_attempts := K, fallback_function := fb }) :
    (handle_exception st e).1.failure_counters name
        = some ((st.failure_counters name).getD 0 + 1)
      ∧ ((name ∈ (handle_exception st e).1.quarantined_neurons) ↔
          (name ∈ st.quarantined_neurons
            ∨ K < (st.failure_counters name).getD 0 + 1)) := by
  have htr : optStrTruthy e.neuron_name = true := by
    simp [he, optStrTruthy, hname]
  have hget : e.neuron_name.getD "" = name := by simp [he]
  have hcfg1 : (handle_named_update st name).recovery_configs name
      = some { strategy := .ISOLATION, max_attempts := K, fallback_function := fb } := by
    rw [handle_named_update_configs, hcfg]
  have happly := apply_recovery_isolation (handle_named_update st name) e name K fb
    he hname hcfg1
  rw [handle_exception]
  simp only [htr, hget, if_true, hcfg1, Option.isSome_some, Bool.and_true, Bool.and_self]
  rw [happly.1, handle_named_update_counters_self]
  refine ⟨rfl, ?_⟩
  rw [happly.2, handle_named_update_quarantined, handle_named_update_counters_self]
  simp

lemma quarantine_neuron_configs (st : ImmuneSystem) (n : String) :
    (quarantine_neuron st n).recovery_configs = st.recovery_configs := rfl

lemma quarantine_neuron_quarantined (st : ImmuneSystem) (n : String) :
    (quarantine_neuron st n).quarantined_neurons
      = strSetAdd st.quarantined_neurons n := rfl

lemma apply_recovery_named_configs (st : ImmuneSystem) (n : String) :
    (apply_recovery_named st n).recovery_configs = st.recovery_configs := by
  rw [apply_recovery_named]
  split
  · rfl
  · split
    · split <;> rfl
    · rfl

lemma apply_recovery_named_quarantine_mono (st : ImmuneSystem) (n name : String)
    (h : name ∈ st.quarantined_neurons) :
    name ∈ (apply_recovery_named st n).quarantined_neurons := by
  rw [apply_recovery_named]
  split
  · exact h
  · split
    · split
      · rw [quarantine_neuron_quarantined, mem_strSetAdd_iff]
        exact Or.inl h
      · exact h
    · exact h

lemma apply_recovery_configs (st : ImmuneSystem) (e : NeuralException) :
    (apply_recovery_strategy st e).recovery_configs = st.recovery_configs := by
  rw [apply_recovery_strategy]
  split
  · rfl
  · exact apply_recovery_named_configs st _

lemma apply_recovery_quarantine_mono (st : ImmuneSystem) (e : NeuralException)
    (name : String) (h : name ∈ st.quarantined_neurons) :
    name ∈ (apply_recovery_strategy st e).quarantined_neurons := by
  rw [apply_recovery_strategy]
  split
  · exact h
  · exact apply_recovery_named_quarantine_mono st _ name h

lemma handle_exception_configs (st : ImmuneSystem) (e : NeuralException) :
    (handle_exception st e).1.recovery_configs = st.recovery_configs := by
  rw [handle_exception]
  by_cases h : optStrTruthy e.neuron_name = true <;>
    simp only [h, if_true, if_false, Bool.false_and, Bool.true_and, Bool.not_true] <;>
    split <;>
    simp [apply_recovery_configs, handle_named_update_configs]

lemma handle_exception_quarantine_mono (st : ImmuneSystem) (e : NeuralException)
    (name : String) (h : name ∈ st.quarantined_neurons) :
    name ∈ (handle_exception st e).1.quarantined_neurons := by
  rw [handle_exception]
  by_cases ht : optStrTruthy e.neuron_name = true <;>
    simp only [ht, if_true, if_false, Bool.false_and, Bool.true_and, Bool.not_true] <;>
    split
  · exact apply_recovery_quarantine_mono _ e name
      (by rw [handle_named_update_quarantined]; exact h)
  · rw [handle_named_update_quarantined]
    exact h
  · exact apply_recovery_quarantine_mono _ e name h
  · exact h

lemma heal_neuron_quarantined (st : ImmuneSystem) (n : String) (amount : ℚ) :
    (heal_neuron st n amount).quarantined_neurons = st.quarantined_neurons := by
  simp only [heal_neuron]
  split_ifs <;> rfl

lemma release_neuron_quarantine_other (st : ImmuneSystem) (n name : String)
    (hne : name ≠ n) (h : name ∈ st.quarantined_neurons) :
    name ∈ (release_neuron st n).quarantined_neurons := by
  rw [release_neuron]
  split
  · show name ∈ strSetRemove st.quarantined_neurons n
    rw [strSetRemove, List.mem_filter]
    exact ⟨h, by simpa using hne⟩
  · exact h

/-- Iterated `handle` of the same incident. -/
def iterHandle (st : ImmuneSystem) (e : NeuralException) : Nat → ImmuneSystem
  | 0 => st
  | m + 1 => (handle_exception (iterHandle st e m) e).1

/-- Calls a user of the immune system can make between incidents. -/
inductive ImmuneOp where
  | handle (e : NeuralException)
  | heal (name : String) (amount : ℚ)
  | release (name : String)
deriving DecidableEq

/-- Apply one call. -/
def applyImmuneOp (st : ImmuneSystem) : ImmuneOp → ImmuneSystem
  | .handle e => (handle_exception st e).1
  | .heal name amount => heal_neuron st name amount
  | .release name => release_neuron st name

/-- Apply a sequence of calls. -/
def applyImmuneOps (ops : List ImmuneOp) (st : ImmuneSystem) : ImmuneSystem :=
  ops.foldl applyImmuneOp st

lemma iterHandle_isolation_invariant (st0 : ImmuneSystem) (e : NeuralException)
    (name : String) (K : Nat) (fb : Option Nat)
    (he : e.neuron_name = some name) (hname : ¬name = "")
    (hcfg : st0.recovery_configs name
      = some { strategy := .ISOLATION, max_attempts := K, fallback_function := fb })
    (hctr : (st0.failure_counters name).getD 0 = 0)
    (hq : name ∉ st0.quarantined_neurons) (m : Nat) :
    ((iterHandle st0 e m).failure_counters name).getD 0 = m
      ∧ (iterHandle st0 e m).recovery_configs name
          = some { strategy := .ISOLATION, max_attempts := K, fallback_function := fb }
      ∧ (name ∈ (iterHandle st0 e m).quarantined_neurons ↔ K < m) := by
  induction m with
  | zero =>
    refine ⟨hctr, hcfg, ?_⟩
    simp [iterHandle, hq]
  | succ m ih =>
    obtain ⟨ih1, ih2, ih3⟩ := ih
    have hstep := handle_step_isolation (iterHandle st0 e m) e name K fb he hname ih2
    refine ⟨?_, ?_, ?_⟩
    · show ((handle_exception (iterHandle st0 e m) e).1.failure_counters name).getD 0 = m + 1
      rw [hstep.1, ih1]
      rfl
    · show (handle_exception (iterHandle st0 e m) e).1.recovery_configs name = _
      rw [handle_exception_configs, ih2]
    · show name ∈ (handle_exception (iterHandle st0 e m) e).1.quarantined_neurons ↔ K < m + 1
      rw [hstep.2, ih3, ih1]
      omega

/-- C3 (amended): with an `ISOLATION` policy of threshold K, a component
becomes quarantined once its consecutive failure count strictly exceeds K
(that is, on the (K+1)-th handled incident, since the source triggers on
`failure_count > max_attempts`), and it stays quarantined under any further
`handle` or `heal` calls until `release` is called for it. -/
theorem isolation_policy_quarantine (st0 : ImmuneSystem) (e : NeuralException)
    (name : String) (K : Nat) (fb : Option Nat)
    (he : e.neuron_name = some name) (hname : ¬name = "")
    (hcfg : st0.recovery_configs name
      = some { strategy := .ISOLATION, max_attempts := K, fallback_function := fb })
    (hctr : (st0.failure_counters name).getD 0 = 0)
    (hq : name ∉ st0.quarantined_neurons)
    (m : Nat) (hm : K < m)
    (ops : List ImmuneOp) (hops : ImmuneOp.release name ∉ ops) :
    is_quarantined (iterHandle st0 e m) name = true
      ∧ is_quarantined (applyImmuneOps ops (iterHandle st0 e m)) name = true := by
  have hinv := iterHandle_isolation_invariant st0 e name K fb he hname hcfg hctr hq m
  have hq1 : name ∈ (iterHandle st0 e m).quarantined_neurons := hinv.2.2.mpr hm
  have hmain : ∀ (ops' : List ImmuneOp) (st : ImmuneSystem),
      name ∈ st.quarantined_neurons → ImmuneOp.release name ∉ ops' →
      name ∈ (applyImmuneOps ops' st).quarantined_neurons := by
    intro ops'
    induction ops' with
    | nil =>
      intro st h _
      exact h
    | cons op rest ih =>
      intro st h hnotin
      show name ∈ (rest.foldl applyImmuneOp (applyImmuneOp st op)).quarantined_neurons
      refine ih _ ?_ fun hc => hnotin (List.mem_cons_of_mem _ hc)
      cases op with
      | handle e2 => exact handle_exception_quarantine_mono st e2 name h
      | heal n2 a2 =>
        show name ∈ (heal_neuron st n2 a2).quarantined_neurons
        rw [heal_neuron_quarantined]
        exact h
      | release n2 =>
        have hne : name ≠ n2 := by
          intro hc
          subst hc
          exact hnotin (List.mem_cons_self _ _)
        exact release_neuron_quarantine_other st n2 name hne h
  constructor
  · rw [is_quarantined]
    simpa [List.elem_iff] using hq1
  · rw [is_quarantined]
    simpa [List.elem_iff] using hmain ops _ hq1 hops

/-- The `ISOLATION` policy of the C3 scenarios: threshold 1. -/
def c3Cfg : RecoveryConfig :=
  { strategy := .ISOLATION, max_attempts := 1, fallback_function := none }

/-- Fresh immune system with that policy registered for component `"n"`. -/
def c3St0 : ImmuneSystem :=
  { ImmuneSystem.init with
      recovery_configs := fun m => if m = "n" then some c3Cfg else none }

/-- The incident handled in the C3 scenarios. -/
def c3Exc : NeuralException :=
  { exception_type := .SENSOR, neuron_name := some "n" }

/-- C3 (counterexample): with threshold K = 1, after the failure count
reaches exactly K the component is still not quarantined — the source only
quarantines once the count strictly exceeds `max_attempts`. -/
theorem c3_not_quarantined_at_threshold :
    c3Cfg.max_attempts = 1
      ∧ (handle_exception c3St0 c3Exc).1.failure_counters "n" = some 1
      ∧ is_quarantined (handle_exception c3St0 c3Exc).1 "n" = false := by
  exact ⟨rfl, rfl, rfl⟩

/-- Witness for the amended C3: two incidents exceed threshold 1; healing
and a further incident keep the component quarantined. -/
theorem isolation_policy_quarantine_witness :
    is_quarantined (iterHandle c3St0 c3Exc 2) "n" = true
      ∧ is_quarantined
          (applyImmuneOps [ImmuneOp.heal "n" (1/10), ImmuneOp.handle c3Exc]
            (iterHandle c3St0 c3Exc 2)) "n" = true := by
  exact isolation_policy_quarantine c3St0 c3Exc "n" 1 none rfl (by decide) rfl rfl
    (by decide) 2 (by decide) [ImmuneOp.heal "n" (1/10), ImmuneOp.handle c3Exc]
    (by decide)

/-! ## The plugin manager (`plugin_manager.py`)

`load_plugin` checks the metadata cache, the enabled flag and each
dependency (existence, version compatibility, recursive load), then imports
and registers the component.  The import/registration tail (lines 329–377)
is file-system and reflection work abstracted by one `loadable` flag; every
branch before it is kept.  Versions are embedded as numeric release
component lists, and a dependency constraint (`>=x.y.z` or exact `x.y.z`)
as `VersionReq`.  Because the source recursion carries no cycle guard the
embedding is fuel-indexed: `none` means the fuel ran out, and a computation
that yields `none` for every fuel diverges. -/

/-- A parsed version requirement string: `>=v` or exact `v`. -/
inductive VersionReq where
  | exact (v : List Nat)
  | atLeast (v : List Nat)
deriving DecidableEq, Repr

/-- `parse_version` comparison on numeric release versions: component-wise,
missing components count as zero. -/
def verLe : List Nat → List Nat → Bool
  | [], _ => true
  | a :: as, [] => decide (a = 0) && verLe as []
  | a :: as, b :: bs =>
    if a < b then true
    else if b < a then false
    else verLe as bs

/-- `parse_version` equality. -/
def verEq (a b : List Nat) : Bool :=
  verLe a b && verLe b a

/-- Embeds `_check_version_compatibility`: `>=` compares with the parsed
order, anything else is an exact parsed match. -/
def check_version_compatibility (required : VersionReq) (available : List Nat) : Bool :=
  match required with
  | .atLeast v => verLe v available
  | .exact v => verEq available v

/-- Embeds `PluginMetadata`; name, description, author, category, config
schema and path are not read by `load_plugin`'s control flow, and `loadable`
abstracts the import/instantiation/registration tail. -/
structure PluginMetadata where
  id : String
  version : List Nat
  dependencies : List (String × VersionReq)
  enabled : Bool
  loadable : Bool
deriving DecidableEq, Repr

/-- Dictionary lookup in the metadata cache `self.plugins`. -/
def lookupMeta : List (String × PluginMetadata) → String → Option PluginMetadata
  | [], _ => none
  | (k, v) :: rest, pid => if k = pid then some v else lookupMeta rest pid

mutual
/-- Embeds `PluginManager.load_plugin` (lines 285–377), fuel-indexed:
`loaded` is the key set of `self.loaded_plugins`; the result is the new
loaded set and whether a plugin instance (rather than `None`) was returned;
`none` means the recursion exceeded the fuel. -/
def load_plugin (plugins : List (String × PluginMetadata)) (fuel : Nat)
    (loaded : List String) (pid : String) : Option (List String × Bool) :=
  match fuel with
  | 0 => none
  | fuel' + 1 =>
    match lookupMeta plugins pid with
    | none => some (loaded, false)
    | some metadata =>
      if pid ∈ loaded then some (loaded, true)
      else if !metadata.enabled then some (loaded, false)
      else
        match load_deps plugins fuel' loaded metadata.dependencies with
        | none => none
        | some (loaded1, ok) =>
          if !ok then some (loaded1, false)
          else if metadata.loadable then some (loaded1 ++ [pid], true)
          else some (loaded1, false)
termination_by (fuel, 0)

/-- The dependency loop of `load_plugin` (lines 310–327): existence check,
version check, recursive load of a not-yet-loaded dependency, failing the
whole load when a dependency fails. -/
def load_deps (plugins : List (String × PluginMetadata)) (fuel : Nat)
    (loaded : List String) (deps : List (String × VersionReq)) :
    Option (List String × Bool) :=
  match deps with
  | [] => some (loaded, true)
  | (depId, depReq) :: rest =>
    match lookupMeta plugins depId with
    | none => some (loaded, false)
    | some depMeta =>
      if !check_version_compatibility depReq depMeta.version then
        some (loaded, false)
      else if depId ∈ loaded then load_deps plugins fuel loaded rest
      else
        match load_plugin plugins fuel loaded depId with
        | none => none
        | some (loaded1, success) =>
          if success then load_deps plugins fuel loaded1 rest
          else some (loaded1, false)
termination_by (fuel, deps.length + 1)
end

/-- Metadata of plugin `A` of the C2 failing input: enabled, loadable,
depends on `B` with an exact version match. -/
def metaA : PluginMetadata :=
  { id := "A", version := [1, 0, 0]
    dependencies := [("B", VersionReq.exact [1, 0, 0])]
    enabled := true, loadable := true }

/-- Metadata of plugin `B` of the C2 failing input: depends back on `A`. -/
def metaB : PluginMetadata :=
  { id := "B", version := [1, 0, 0]
    dependencies := [("A", VersionReq.exact [1, 0, 0])]
    enabled := true, loadable := true }

/-- The discovered plugin set of the C2 failing input: the cycle `A → B → A`,
both enabled and loadable. -/
def cyclicPlugins : List (String × PluginMetadata) :=
  [("A", metaA), ("B", metaB)]

/-- C2 (divergence at the failing input): with the cyclic dependency pair
`A → B → A` discovered and nothing loaded, `load_plugin "A"` exhausts every
fuel bound — the source recursion `load_plugin A → load_plugin B →
load_plugin A → …` never terminates (no cycle guard, and the loaded set is
only extended after the dependencies succeed), so no cycle error is logged
and no result is returned. -/
theorem load_plugin_cycle_diverges (fuel : Nat) :
    load_plugin cyclicPlugins fuel [] "A" = none
      ∧ load_plugin cyclicPlugins fuel [] "B" = none := by
  have hA : lookupMeta cyclicPlugins "A" = some metaA := rfl
  have hB : lookupMeta cyclicPlugins "B" = some metaB := rfl
  induction fuel with
  | zero => exact ⟨by rw [load_plugin], by rw [load_plugin]⟩
  | succ fuel ih =>
    constructor
    · rw [load_plugin, hA]
      simp [metaA, load_deps, hB, metaB, check_version_compatibility, verEq,
        verLe, ih.2]
    · rw [load_plugin, hB]
      simp [metaB, load_deps, hA, metaA, check_version_compatibility, verEq,
        verLe, ih.1]

/-! ## The topological load order (`_get_load_order`)

The depth-first sort keeps a visited set, a recursion-stack set
(`temp_mark`) and the output order; a node found on the recursion stack is a
cycle: it is logged and simply returned from (treated as already visited).
The embedding is fuel-indexed only to make the recursion well-founded in
Lean; the sufficiency theorem below shows one fixed fuel bound always
suffices, i.e. the source recursion terminates on every graph, cyclic ones
included. -/

/-- The mutable state of `_get_load_order`'s nested `visit`. -/
structure DfsState where
  visited : List String
  temp_mark : List String
  order : List String

/-- `self.dependency_graph.get(node, set())`. -/
def lookupDeps : List (String × List String) → String → List String
  | [], _ => []
  | (k, ds) :: rest, node => if k = node then ds else lookupDeps rest node

mutual
/-- Embeds `visit` (`plugin_manager.py` lines 240–257). -/
def visit (graph : List (String × List String)) (fuel : Nat) (st : DfsState)
    (node : String) : Option DfsState :=
  if node ∈ st.temp_mark then some st
  else if node ∈ st.visited then some st
  else
    match fuel with
    | 0 => none
    | fuel' + 1 =>
      match visit_list graph fuel'
          { st with temp_mark := st.temp_mark ++ [node] }
          (lookupDeps graph node) with
      | none => none
      | some st2 =>
        some { st2 with
            temp_mark := st2.temp_mark.filter fun x => x != node
            visited := st2.visited ++ [node]
            order := st2.order ++ [node] }
termination_by (fuel, 0)

/-- The `for dep in ...: visit(dep)` loop inside `visit`. -/
def visit_list (graph : List (String × List String)) (fuel : Nat)
    (st : DfsState) (nodes : List String) : Option DfsState :=
  match nodes with
  | [] => some st
  | n :: rest =>
    match visit graph fuel st n with
    | none => none
    | some st1 => visit_list graph fuel st1 rest
termination_by (fuel, nodes.length + 1)
end

/-- One iteration of `_get_load_order`'s `for node in self.dependency_graph`
loop. -/
def loadOrderStep (graph : List (String × List String)) (fuel : Nat)
    (acc : Option DfsState) (p : String × List String) : Option DfsState :=
  match acc with
  | none => none
  | some st => if p.1 ∈ st.visited then some st else visit graph fuel st p.1

/-- Embeds `_get_load_order` (lines 229–265): visit every not-yet-visited
key, then reverse the collected order. -/
def get_load_order (graph : List (String × List String)) (fuel : Nat) :
    Option (List String) :=
  (graph.foldl (loadOrderStep graph fuel)
      (some { visited := [], temp_mark := [], order := [] })).map
    fun st => st.order.reverse

/-- Every node the sort can ever reach: the keys and all dependency
entries. -/
def allNodes (graph : List (String × List String)) : List String :=
  graph.map Prod.fst ++ (graph.map Prod.snd).flatten

/-- How many reachable nodes are neither on the recursion stack nor
visited. -/
def remaining (graph : List (String × List String)) (st : DfsState) : Nat :=
  (allNodes graph).dedup.countP fun k =>
    !(st.temp_mark.contains k) && !(st.visited.contains k)

/-- The marked sets only grow across a `visit` (a stacked node may move to
the visited set). -/
def dfsGrows (st st' : DfsState) : Prop :=
  ∀ x, (x ∈ st.temp_mark → x ∈ st'.temp_mark ∨ x ∈ st'.visited)
    ∧ (x ∈ st.visited → x ∈ st'.visited)

lemma dfsGrows_refl (st : DfsState) : dfsGrows st st :=
  fun _ => ⟨Or.inl, id⟩

lemma dfsGrows_trans {a b c : DfsState} (h1 : dfsGrows a b) (h2 : dfsGrows b c) :
    dfsGrows a c := by
  intro x
  constructor
  · intro hx
    rcases (h1 x).1 hx with h | h
    · exact (h2 x).1 h
    · exact Or.inr ((h2 x).2 h)
  · intro hx
    exact (h2 x).2 ((h1 x).2 hx)

lemma dfsGrows_remaining_le (graph : List (String × List String))
    {st st' : DfsState} (h : dfsGrows st st') :
    remaining graph st' ≤ remaining graph st := by
  refine List.countP_mono_left fun k _ hk => ?_
  rw [Bool.and_eq_true] at hk ⊢
  obtain ⟨h1, h2⟩ := hk
  have hnt : k ∉ st'.temp_mark := by
    intro hm
    rw [Bool.not_eq_true', ← Bool.not_eq_true, List.elem_iff] at h1
    exact h1 hm
  have hnv : k ∉ st'.visited := by
    intro hm
    rw [Bool.not_eq_true', ← Bool.not_eq_true, List.elem_iff] at h2
    exact h2 hm
  have hkt : k ∉ st.temp_mark := by
    intro hm
    rcases (h k).1 hm with hh | hh
    · exact hnt hh
    · exact hnv hh
  have hkv : k ∉ st.visited := fun hm => hnv ((h k).2 hm)
  constructor
  · rw [Bool.not_eq_true', ← Bool.not_eq_true, List.elem_iff]
    exact hkt
  · rw [Bool.not_eq_true', ← Bool.not_eq_true, List.elem_iff]
    exact hkv

lemma lookupDeps_sub (graph : List (String × List String)) (node : String) :
    ∀ d ∈ lookupDeps graph node, d ∈ allNodes graph := by
  induction graph with
  | nil => intro d hd; cases hd
  | cons p rest ih =>
    intro d hd
    rcases p with ⟨k, ds⟩
    rw [lookupDeps] at hd
    rw [allNodes]
    by_cases hk : k = node
    · rw [if_pos hk] at hd
      refine List.mem_append.mpr (Or.inr ?_)
      simp only [List.map_cons, List.flatten_cons]
      exact List.mem_append.mpr (Or.inl hd)
    · rw [if_neg hk] at hd
      have := ih d hd
      rw [allNodes] at this
      rcases List.mem_append.mp this with h | h
      · exact List.mem_append.mpr (Or.inl (by simp [h]))
      · refine List.mem_append.mpr (Or.inr ?_)
        simp only [List.map_cons, List.flatten_cons]
        exact List.mem_append.mpr (Or.inr h)

lemma countP_drop_one {α : Type} [DecidableEq α] (base : List α) (hnd : base.Nodup)
    (x : α) (hx : x ∈ base) (p q : α → Bool)
    (hpx : p x = true) (hqx : q x = false)
    (hother : ∀ y, y ≠ x → p y = q y) :
    base.countP q + 1 = base.countP p := by
  induction base with
  | nil => cases hx
  | cons a rest ih =>
    have hnar : a ∉ rest := (List.nodup_cons.mp hnd).1
    have hndr : rest.Nodup := (List.nodup_cons.mp hnd).2
    rw [List.countP_cons, List.countP_cons]
    rcases List.mem_cons.mp hx with hax | hxr
    · subst hax
      have hq0 : rest.countP q = rest.countP p := by
        have h1 : rest.countP q ≤ rest.countP p :=
          List.countP_mono_left fun y hy hqy => by
            rw [hother y (fun hc => hnar (hc ▸ hy))]
            exact hqy
        have h2 : rest.countP p ≤ rest.countP q :=
          List.countP_mono_left fun y hy hpy => by
            rw [← hother y (fun hc => hnar (hc ▸ hy))]
            exact hpy
        omega
      rw [hpx, hqx, hq0]
      simp
    · have hax : a ≠ x := fun hc => hnar (hc ▸ hxr)
      have := ih hndr hxr
      rw [hother a hax]
      omega

lemma remaining_push (graph : List (String × List String)) (st : DfsState)
    (node : String) (hmem : node ∈ allNodes graph)
    (ht : node ∉ st.temp_mark) (hv : node ∉ st.visited) :
    remaining graph { st with temp_mark := st.temp_mark ++ [node] } + 1
      = remaining graph st := by
  rw [remaining, remaining]
  refine countP_drop_one _ (List.nodup_dedup _) node (List.mem_dedup.mpr hmem) _ _
    ?_ ?_ ?_
  · rw [Bool.and_eq_true]
    constructor
    · rw [Bool.not_eq_true', ← Bool.not_eq_true, List.elem_iff]
      exact ht
    · rw [Bool.not_eq_true', ← Bool.not_eq_true, List.elem_iff]
      exact hv
  · show (!(List.contains (st.temp_mark ++ [node]) node) && _) = false
    have : (st.temp_mark ++ [node]).contains node = true := by
      rw [List.elem_iff]
      simp
    rw [this]
    rfl
  · intro y hy
    show (!(st.temp_mark.contains y) && !(st.visited.contains y))
        = (!((st.temp_mark ++ [node]).contains y) && !(st.visited.contains y))
    have : (st.temp_mark ++ [node]).contains y = st.temp_mark.contains y := by
      by_cases hc : y ∈ st.temp_mark
      · have h1 : st.temp_mark.contains y = true := List.elem_iff.mpr hc
        have h2 : (st.temp_mark ++ [node]).contains y = true :=
          List.elem_iff.mpr (List.mem_append.mpr (Or.inl hc))
        rw [h1, h2]
      · have h1 : st.temp_mark.contains y = false := by
          rw [Bool.eq_false_iff]
          intro hcc
          exact hc (List.elem_iff.mp hcc)
        have h2 : (st.temp_mark ++ [node]).contains y = false := by
          rw [Bool.eq_false_iff]
          intro hcc
          rcases List.mem_append.mp (List.elem_iff.mp hcc) with h | h
          · exact hc h
          · simp at h
            exact hy h
        rw [h1, h2]
    rw [this]

lemma visit_fresh (graph : List (String × List String)) (fuel : Nat)
    (st : DfsState) (node : String)
    (h1 : node ∉ st.temp_mark) (h2 : node ∉ st.visited) :
    visit graph (fuel + 1) st node
      = match visit_list graph fuel
            { st with temp_mark := st.temp_mark ++ [node] }
            (lookupDeps graph node) with
        | none => none
        | some st2 =>
          some { st2 with
              temp_mark := st2.temp_mark.filter fun x => x != node
              visited := st2.visited ++ [node]
              order := st2.order ++ [node] } := by
  rw [visit.eq_def, if_neg h1, if_neg h2]

lemma visit_sufficient (graph : List (String × List String)) (fuel : Nat) :
    (∀ (st : DfsState) (node : String), node ∈ allNodes graph →
        remaining graph st < fuel →
        ∃ st', visit graph fuel st node = some st' ∧ dfsGrows st st')
      ∧ (∀ (st : DfsState) (nodes : List String),
        (∀ n ∈ nodes, n ∈ allNodes graph) → remaining graph st < fuel →
        ∃ st', visit_list graph fuel st nodes = some st' ∧ dfsGrows st st') := by
  induction fuel using Nat.strong_induction_on with
  | _ fuel ihs =>
  have hvisit : ∀ (st : DfsState) (node : String), node ∈ allNodes graph →
      remaining graph st < fuel →
      ∃ st', visit graph fuel st node = some st' ∧ dfsGrows st st' := by
    intro st node hmem hfuel
    by_cases h1 : node ∈ st.temp_mark
    · exact ⟨st, by rw [visit.eq_def, if_pos h1], dfsGrows_refl st⟩
    · by_cases h2 : node ∈ st.visited
      · exact ⟨st, by rw [visit.eq_def, if_neg h1, if_pos h2], dfsGrows_refl st⟩
      · cases fuel with
        | zero => omega
        | succ f =>
          have hpush := remaining_push graph st node hmem h1 h2
          obtain ⟨st2, heq2, hg2⟩ := (ihs f (by omega)).2
            { st with temp_mark := st.temp_mark ++ [node] }
            (lookupDeps graph node) (lookupDeps_sub graph node) (by omega)
          refine ⟨{ st2 with
              temp_mark := st2.temp_mark.filter fun x => x != node
              visited := st2.visited ++ [node]
              order := st2.order ++ [node] }, ?_, ?_⟩
          · rw [visit_fresh graph f st node h1 h2, heq2]
          · intro x
            constructor
            · intro hx
              have hx1 : x ∈ st.temp_mark ++ [node] := List.mem_append.mpr (Or.inl hx)
              rcases (hg2 x).1 hx1 with hT | hV
              · by_cases hxn : x = node
                · exact Or.inr (List.mem_append.mpr (Or.inr (by simp [hxn])))
                · refine Or.inl (List.mem_filter.mpr ⟨hT, by simpa using hxn⟩)
              · exact Or.inr (List.mem_append.mpr (Or.inl hV))
            · intro hx
              exact List.mem_append.mpr (Or.inl ((hg2 x).2 hx))
  have hlistQ : ∀ (st : DfsState) (nodes : List String),
      (∀ n ∈ nodes, n ∈ allNodes graph) → remaining graph st < fuel →
      ∃ st', visit_list graph fuel st nodes = some st' ∧ dfsGrows st st' := by
    intro st nodes
    induction nodes generalizing st with
    | nil =>
      intro _ _
      exact ⟨st, by rw [visit_list], dfsGrows_refl st⟩
    | cons n rest ih =>
      intro hsub hfuel
      obtain ⟨st1, heq1, hg1⟩ := hvisit st n (hsub n (by simp)) hfuel
      obtain ⟨st2, heq2, hg2⟩ := ih st1 (fun m hm => hsub m (by simp [hm]))
        (lt_of_le_of_lt (dfsGrows_remaining_le graph hg1) hfuel)
      refine ⟨st2, ?_, dfsGrows_trans hg1 hg2⟩
      rw [visit_list, heq1]
      exact heq2
  exact ⟨hvisit, hlistQ⟩

/-- C2, load-order half: on every dependency graph — cyclic ones included —
the depth-first sort terminates: fuel one larger than the number of distinct
reachable nodes is never exhausted, because a node re-visited while still on
the recursion stack returns immediately and every non-trivial visit moves a
fresh node onto the stack.  (This half matches the source; the
`load_plugin` half does not, see `load_plugin_cycle_diverges`.) -/
theorem get_load_order_terminates (graph : List (String × List String)) :
    (get_load_order graph ((allNodes graph).dedup.length + 1)).isSome = true := by
  have hfuelAny : ∀ st : DfsState,
      remaining graph st < (allNodes graph).dedup.length + 1 := by
    intro st
    have := List.countP_le_length
      (fun k => !(st.temp_mark.contains k) && !(st.visited.contains k))
      (l := (allNodes graph).dedup)
    rw [remaining]
    omega
  have hfold : ∀ (ps : List (String × List String)) (st : DfsState),
      (∀ p ∈ ps, p.1 ∈ allNodes graph) →
      ∃ st', ps.foldl (loadOrderStep graph ((allNodes graph).dedup.length + 1))
          (some st) = some st' := by
    intro ps
    induction ps with
    | nil => exact fun st _ => ⟨st, rfl⟩
    | cons p rest ih =>
      intro st hsub
      rw [List.foldl_cons]
      by_cases hv : p.1 ∈ st.visited
      · rw [show loadOrderStep graph ((allNodes graph).dedup.length + 1) (some st) p
              = some st by rw [loadOrderStep, if_pos hv]]
        exact ih st fun q hq => hsub q (by simp [hq])
      · obtain ⟨st1, heq1, _⟩ := (visit_sufficient graph _).1 st p.1
          (hsub p (by simp)) (hfuelAny st)
        rw [show loadOrderStep graph ((allNodes graph).dedup.length + 1) (some st) p
              = some st1 by rw [loadOrderStep, if_neg hv]; exact heq1]
        exact ih st1 fun q hq => hsub q (by simp [hq])
  obtain ⟨st', heq⟩ := hfold graph { visited := [], temp_mark := [], order := [] }
    (fun p hp => List.mem_append.mpr (Or.inl (List.mem_map_of_mem Prod.fst hp)))
  rw [get_load_order, heq]
  rfl
